import Mathlib

/-!
# Verification of the `volnt/raytracer` rendering core

Shallow embedding of `app/main.py` over exact real arithmetic (`ℝ`):
the quadratic solver, `Vector` / `Color` algebra, the `Sphere` / `Plane`
intersection routines, the closest-hit scene query, and the per-pixel
shading loop of `main`, together with theorems settling the specification
claims about them.
-/

open Real

noncomputable section

namespace Raytracer

/-- `solve_quadratic_equation(a, b, c)` from `main.py`:
returns two roots for positive discriminant (numerically stable form),
one root for zero discriminant, and the empty list otherwise. -/
noncomputable def solve_quadratic_equation (a b c : ℝ) : List ℝ :=
  let delta := b * b - 4 * a * c
  if delta > 0 then
    let q := if b > 0 then -0.5 * (b + Real.sqrt delta) else -0.5 * (b - Real.sqrt delta)
    [q / a, c / q]
  else if delta = 0 then
    [-b / (2 * a)]
  else
    []

/-- The 3-component `Vector` dataclass (components modelled as reals). -/
structure Vector where
  x : ℝ := 0
  y : ℝ := 0
  z : ℝ := 0

namespace Vector

/-- `Vector.__add__`. -/
def add (v w : Vector) : Vector := ⟨v.x + w.x, v.y + w.y, v.z + w.z⟩

/-- `Vector.__sub__`. -/
def sub (v w : Vector) : Vector := ⟨v.x - w.x, v.y - w.y, v.z - w.z⟩

/-- `Vector.__mul__` (scale by a scalar). -/
def smul (v : Vector) (k : ℝ) : Vector := ⟨v.x * k, v.y * k, v.z * k⟩

/-- `Vector.dot`. -/
def dot (v w : Vector) : ℝ := v.x * w.x + v.y * w.y + v.z * w.z

/-- `Vector.cross`. -/
def cross (v w : Vector) : Vector :=
  ⟨v.y * w.z - v.z * w.y, v.z * w.x - v.x * w.z, v.x * w.y - v.y * w.x⟩

/-- `Vector.size` (Euclidean magnitude). -/
noncomputable def size (v : Vector) : ℝ :=
  Real.sqrt (v.x ^ 2 + v.y ^ 2 + v.z ^ 2)

/-- `Vector.normalize` (divide each component by the magnitude). -/
noncomputable def normalize (v : Vector) : Vector :=
  let s := v.size
  ⟨v.x / s, v.y / s, v.z / s⟩

end Vector

/-- `Position = Vector` alias from the source. -/
abbrev Position := Vector

/-- The `Color` dataclass (channels modelled as reals). -/
structure Color where
  red : ℝ := 0
  green : ℝ := 0
  blue : ℝ := 0

/-- Python `int()` applied to a real: truncation toward zero. -/
noncomputable def pyInt (r : ℝ) : ℤ := if 0 ≤ r then ⌊r⌋ else ⌈r⌉

namespace Color

/-- `Color.to_rgb`: `(int(red), int(green), int(blue))`. -/
noncomputable def to_rgb (c : Color) : ℤ × ℤ × ℤ :=
  (pyInt c.red, pyInt c.green, pyInt c.blue)

/-- `Color.__mul__` (scale by a scalar). -/
def mul (c : Color) (k : ℝ) : Color := ⟨c.red * k, c.green * k, c.blue * k⟩

/-- `Color.__add__`. -/
def add (c d : Color) : Color := ⟨c.red + d.red, c.green + d.green, c.blue + d.blue⟩

/-- `Color.__truediv__`. -/
def div (c : Color) (k : ℝ) : Color := ⟨c.red / k, c.green / k, c.blue / k⟩

end Color

/-- Fields of the `Sphere` dataclass (`color`/`albedo` inherited from `Object`). -/
structure Sphere where
  color : Color
  albedo : ℝ
  pos : Position
  radius : ℝ

/-- Fields of the `Plane` dataclass (`color`/`albedo` inherited from `Object`). -/
structure Plane where
  color : Color
  albedo : ℝ
  pos : Position
  normal : Vector

/-- The closed set of scene-object variants (`Sphere`, `Plane`). -/
inductive Object where
  | sphere : Sphere → Object
  | plane : Plane → Object

/-- `obj.color` field access through the `Object` base class. -/
def Object.color : Object → Color
  | .sphere s => s.color
  | .plane p => p.color

/-- `obj.albedo` field access through the `Object` base class. -/
def Object.albedo : Object → ℝ
  | .sphere s => s.albedo
  | .plane p => p.albedo

/-- The `Hit` dataclass: intersection position, surface normal, object hit. -/
structure Hit where
  pos : Position
  normal : Vector
  obj : Object

/-- `Sphere.intersect(origin, direction)`: solve the quadratic with
`a = 1`, `b = 2 D·(O−C)`, `c = (O−C)·(O−C) − r²`; if the solution list is
empty return `None`; otherwise take `min_t = min(t_list)` and return a
`Hit` only when `min_t >= 0`. -/
def Sphere.intersect (s : Sphere) (origin : Position) (direction : Vector) : Option Hit :=
  let a : ℝ := 1
  let b := 2 * direction.dot (origin.sub s.pos)
  let c := (origin.sub s.pos).dot (origin.sub s.pos) - s.radius * s.radius
  match solve_quadratic_equation a b c with
  | [] => none
  | t :: ts =>
    let min_t := ts.foldl min t
    if min_t ≥ 0 then
      let pos := origin.add (direction.smul min_t)
      some ⟨pos, pos.sub s.pos, Object.sphere s⟩
    else
      none

/-- `Plane.intersect(origin, direction)`: `None` when `D·N == 0`, otherwise a
`Hit` at `t = (P·N − O·N) / (D·N)` whose normal is `N` scaled by `1` when
`D·N > 0` and by `-1` otherwise. -/
def Plane.intersect (p : Plane) (origin : Position) (direction : Vector) : Option Hit :=
  let dir_dot_normal := direction.dot p.normal
  if dir_dot_normal = 0 then
    none
  else
    let t := (p.pos.dot p.normal - origin.dot p.normal) / dir_dot_normal
    some ⟨origin.add (direction.smul t),
          p.normal.smul (if dir_dot_normal > 0 then 1 else -1),
          Object.plane p⟩

/-- Dynamic dispatch of `obj.intersect` over the two variants. -/
def Object.intersect : Object → Position → Vector → Option Hit
  | .sphere s => s.intersect
  | .plane p => p.intersect

/-- `distance = (hit.pos - origin).size()` from the scene-query loop. -/
def hitDistance (origin : Position) (hit : Hit) : ℝ := (hit.pos.sub origin).size

/-- One iteration of the loop body of the scene-query `intersect`:
the accumulator carries `(closest_hit, distance_to_closest_hit)`. -/
def intersectStep (origin : Position) (direction : Vector)
    (acc : Option (Hit × ℝ)) (obj : Object) : Option (Hit × ℝ) :=
  match obj.intersect origin direction with
  | none => acc
  | some hit =>
    let distance := hitDistance origin hit
    match acc with
    | none => some (hit, distance)
    | some (_, dc) => if distance < dc then some (hit, distance) else acc

/-- The scene-query `intersect(origin, direction, scene)`: linear scan over
the scene keeping the hit of strictly smallest distance `(hit.pos − origin).size()`. -/
def intersect (origin : Position) (direction : Vector) (scene : List Object) : Option Hit :=
  (scene.foldl (intersectStep origin direction) none).map Prod.fst

/-- The `Camera` dataclass. -/
structure Camera where
  pos : Position
  height : ℝ
  width : ℝ
  fov : ℝ

/-- The `Light` dataclass. -/
structure Light where
  pos : Position
  intensity : ℝ

instance : DecidableEq Object := Classical.decEq _

/-- `[scene_obj for scene_obj in scene if scene_obj != hit.obj]`:
dataclass `!=` compares by field values. -/
def sceneMinus (scene : List Object) (hitObj : Object) : List Object :=
  scene.filter (fun o => decide (o ≠ hitObj))

/-- `math.radians`: degrees to radians. -/
def radians (deg : ℝ) : ℝ := deg * π / 180

/-- The shading accumulation of `main` for one pixel with hit `h`:
starting from `Color()`, for each light add the Lambertian term unless the
shadow ray toward the light hits something in the scene minus the hit
object; finally add the ambient `0.03` term along the view direction. -/
def shade (scene : List Object) (lights : List Light) (origin : Position) (h : Hit) : Color :=
  let scene_without_obj := sceneMinus scene h.obj
  let color := lights.foldl (fun (color : Color) light =>
    match intersect h.pos ((light.pos.sub h.pos).normalize) scene_without_obj with
    | some _ => color
    | none =>
      color.add (h.obj.color.mul
        (h.obj.albedo / π * light.intensity *
          max 0 (h.normal.dot ((light.pos.sub h.pos).normalize))))) ⟨0, 0, 0⟩
  color.add (h.obj.color.mul
    (h.obj.albedo / π * 0.03 * max 0 (h.normal.dot ((origin.sub h.pos).normalize))))

/-- The camera literal of `main`. -/
def mainCamera : Camera := ⟨⟨0, 0, 0⟩, 500, 500, 90⟩

/-- The scene literal of `main`: four spheres. -/
def mainScene : List Object :=
  [Object.sphere ⟨⟨0x26, 0x60, 0x53⟩, 0.3, ⟨250, 250, 150⟩, 100⟩,
   Object.sphere ⟨⟨0x2A, 0x9D, 0x8F⟩, 0.8, ⟨400, 250, 120⟩, 100⟩,
   Object.sphere ⟨⟨0xE9, 0xC4, 0x6A⟩, 0.4, ⟨300, 150, 200⟩, 60⟩,
   Object.sphere ⟨⟨0xF4, 0xA2, 0x61⟩, 0.3, ⟨250, 250, 130⟩, 50⟩]

/-- `background = Color()` (all channels default to 0). -/
def background : Color := ⟨0, 0, 0⟩

/-- The light literal of `main`. -/
def mainLights : List Light := [⟨⟨-150, -150, -150⟩, 0.2⟩]

/-- `pov_z = 250 / math.tan(math.radians(camera.fov / 2))`, computed once. -/
def pov_z : ℝ := 250 / Real.tan (radians (mainCamera.fov / 2))

/-- Primary-ray origin for pixel `(x, y)`: `camera.pos + Vector(x, y)`. -/
def primaryOrigin (x y : ℝ) : Position := mainCamera.pos.add ⟨x, y, 0⟩

/-- Primary-ray direction for pixel `(x, y)`:
`(origin - Position(250, 250, -pov_z)).normalize()`. -/
def primaryDirection (x y : ℝ) : Vector :=
  ((primaryOrigin x y).sub ⟨250, 250, -pov_z⟩).normalize

/-- The color written at pixel `(x, y)` by the loop of `main` (before the
`to_rgb` conversion): background when the primary ray misses, otherwise the
shading accumulation. -/
def renderPixel (x y : ℝ) : Color :=
  match intersect (primaryOrigin x y) (primaryDirection x y) mainScene with
  | none => background
  | some h => shade mainScene mainLights (primaryOrigin x y) h

/-- The per-light contribution as the specification states it: nothing when
the shadow query on the reduced scene reports any hit, otherwise the
Lambertian diffuse term (normal NOT renormalized). -/
def lightContrib (swo : List Object) (h : Hit) (light : Light) : Color :=
  if (intersect h.pos ((light.pos.sub h.pos).normalize) swo).isSome then ⟨0, 0, 0⟩
  else
    h.obj.color.mul (h.obj.albedo / π * light.intensity *
      max 0 (h.normal.dot ((light.pos.sub h.pos).normalize)))

/-- Componentwise sum of a list of colors. -/
def colorSum (l : List Color) : Color := l.foldr Color.add ⟨0, 0, 0⟩

/-! ## Helper lemmas -/

theorem sqrt_four : Real.sqrt 4 = 2 := by
  rw [show (4 : ℝ) = 2 ^ 2 by norm_num, Real.sqrt_sq (by norm_num)]

/-- The discriminant-positive branch value `q` of the solver is nonzero. -/
theorem solver_q_ne_zero {b delta : ℝ} (hd : 0 < delta) :
    (if b > 0 then -0.5 * (b + Real.sqrt delta) else -0.5 * (b - Real.sqrt delta)) ≠ 0 := by
  have hs : 0 < Real.sqrt delta := Real.sqrt_pos.mpr hd
  split
  · next hb => nlinarith
  · next hb => push_neg at hb; nlinarith

/-- The key algebraic identity: `q` satisfies `q² + b q + a c = 0`. -/
theorem solver_q_root {a b c : ℝ} (hd : 0 < b * b - 4 * a * c) :
    (if b > 0 then -0.5 * (b + Real.sqrt (b * b - 4 * a * c))
     else -0.5 * (b - Real.sqrt (b * b - 4 * a * c))) ^ 2 +
    b * (if b > 0 then -0.5 * (b + Real.sqrt (b * b - 4 * a * c))
         else -0.5 * (b - Real.sqrt (b * b - 4 * a * c))) + a * c = 0 := by
  have hs : Real.sqrt (b * b - 4 * a * c) ^ 2 = b * b - 4 * a * c :=
    Real.sq_sqrt hd.le
  split
  · linear_combination (1 / 4 : ℝ) * hs
  · linear_combination (1 / 4 : ℝ) * hs

/-- `List.foldl min` over `t :: ts` lands in `t :: ts`. -/
theorem foldl_min_mem (ts : List ℝ) (t : ℝ) : ts.foldl min t ∈ t :: ts := by
  induction ts generalizing t with
  | nil => simp
  | cons u us ih =>
    simp only [List.foldl]
    rcases List.mem_cons.mp (ih (min t u)) with h | h
    · rcases min_choice t u with he | he
      · rw [h, he]; exact List.mem_cons_self _ _
      · rw [h, he]; exact List.mem_cons.mpr (Or.inr (List.mem_cons_self _ _))
    · exact List.mem_cons.mpr (Or.inr (List.mem_cons.mpr (Or.inr h)))

/-- `List.foldl min` over `t :: ts` is a lower bound of `t :: ts`. -/
theorem foldl_min_le (ts : List ℝ) (t : ℝ) : ∀ x ∈ t :: ts, ts.foldl min t ≤ x := by
  induction ts generalizing t with
  | nil => simp
  | cons u us ih =>
    intro x hx
    simp only [List.foldl]
    have hmin : us.foldl min (min t u) ≤ min t u :=
      ih (min t u) (min t u) (List.mem_cons_self _ _)
    rcases List.mem_cons.mp hx with he | hx
    · rw [he]; exact le_trans hmin (min_le_left _ _)
    · rcases List.mem_cons.mp hx with he | hx
      · rw [he]; exact le_trans hmin (min_le_right _ _)
      · exact ih (min t u) x (List.mem_cons.mpr (Or.inr hx))

/-! ## C4: quadratic solver -/

/-- Every value returned by the solver is a genuine root of `a x² + b x + c`
when `a ≠ 0`. -/
theorem solve_roots (a b c : ℝ) (ha : a ≠ 0) :
    ∀ x ∈ solve_quadratic_equation a b c, a * x ^ 2 + b * x + c = 0 := by
  intro x hx
  unfold solve_quadratic_equation at hx
  dsimp only at hx
  by_cases hd : 0 < b * b - 4 * a * c
  · rw [if_pos hd] at hx
    have hq := solver_q_root (a := a) (b := b) (c := c) hd
    have hq0 := solver_q_ne_zero (b := b) hd
    set q := (if b > 0 then -0.5 * (b + Real.sqrt (b * b - 4 * a * c))
              else -0.5 * (b - Real.sqrt (b * b - 4 * a * c))) with hqdef
    rcases List.mem_cons.mp hx with he | hx
    · rw [he]
      have h2 : a * (q / a) ^ 2 + b * (q / a) + c = (q ^ 2 + b * q + a * c) / a := by
        field_simp
        ring
      rw [h2, hq, zero_div]
    · rcases List.mem_cons.mp hx with he | hx
      · rw [he]
        have h2 : a * (c / q) ^ 2 + b * (c / q) + c
            = c * (q ^ 2 + b * q + a * c) / q ^ 2 := by
          field_simp
          ring
        rw [h2, hq, mul_zero, zero_div]
      · simp at hx
  · rw [if_neg hd] at hx
    by_cases hd0 : b * b - 4 * a * c = 0
    · rw [if_pos hd0] at hx
      rcases List.mem_cons.mp hx with he | hx
      · rw [he]
        have h2 : a * (-b / (2 * a)) ^ 2 + b * (-b / (2 * a)) + c
            = -(b * b - 4 * a * c) / (4 * a) := by
          field_simp
          ring
        rw [h2, hd0, neg_zero, zero_div]
      · simp at hx
    · rw [if_neg hd0] at hx
      simp at hx

/-- C4: `solve_quadratic_equation(a, b, c)` with `Δ = b² − 4ac` returns, for
`Δ > 0`, exactly the list `[q/a, c/q]` with `q = -0.5*(b + √Δ)` when `b > 0`
and `q = -0.5*(b − √Δ)` otherwise; for `Δ = 0` the single root `-b/(2a)`; for
`Δ < 0` the empty list — and when `a ≠ 0` every returned value is a genuine
root of `a x² + b x + c`. -/
theorem solve_quadratic_equation_correct (a b c : ℝ) (ha : a ≠ 0) :
    (∀ x ∈ solve_quadratic_equation a b c, a * x ^ 2 + b * x + c = 0) ∧
    (0 < b * b - 4 * a * c →
      ∃ q : ℝ,
        q = (if b > 0 then -0.5 * (b + Real.sqrt (b * b - 4 * a * c))
             else -0.5 * (b - Real.sqrt (b * b - 4 * a * c))) ∧
        solve_quadratic_equation a b c = [q / a, c / q]) ∧
    (b * b - 4 * a * c = 0 → solve_quadratic_equation a b c = [-b / (2 * a)]) ∧
    (b * b - 4 * a * c < 0 → solve_quadratic_equation a b c = []) := by
  refine ⟨solve_roots a b c ha, ?_, ?_, ?_⟩
  · intro hd
    refine ⟨_, rfl, ?_⟩
    unfold solve_quadratic_equation
    dsimp only
    rw [if_pos hd]
  · intro hd
    unfold solve_quadratic_equation
    dsimp only
    rw [if_neg (by rw [hd] ; exact lt_irrefl 0), if_pos hd]
  · intro hd
    unfold solve_quadratic_equation
    dsimp only
    rw [if_neg (by linarith), if_neg (by linarith)]

/-- Witness for C4 at the spec's concrete inputs: the root set `{1, 2}` for
`(1, -3, 2)`, the empty result for `(1, 2, 5)`, the singleton `{1}` for
`(1, -2, 1)`. -/
theorem solve_quadratic_equation_correct_witness :
    solve_quadratic_equation 1 (-3) 2 = [2, 1] ∧
    solve_quadratic_equation 1 2 5 = [] ∧
    solve_quadratic_equation 1 (-2) 1 = [1] := by
  refine ⟨?_, ?_, ?_⟩
  · obtain ⟨q, hq, he⟩ :=
      (solve_quadratic_equation_correct 1 (-3) 2 (by norm_num)).2.1 (by norm_num)
    rw [he]
    have h1 : ((-3 : ℝ) * -3 - 4 * 1 * 2) = 1 := by norm_num
    rw [h1] at hq
    rw [if_neg (by norm_num), Real.sqrt_one] at hq
    rw [hq]
    norm_num
  · exact (solve_quadratic_equation_correct 1 2 5 (by norm_num)).2.2.2 (by norm_num)
  · have h := (solve_quadratic_equation_correct 1 (-2) 1 (by norm_num)).2.2.1 (by norm_num)
    rw [h]
    norm_num

/-! ## C1: sphere intersection -/

/-- Unfolding lemma for `Sphere.intersect` exposing the solver call. -/
theorem sphere_intersect_eq (s : Sphere) (O : Position) (D : Vector) :
    s.intersect O D =
      match solve_quadratic_equation 1 (2 * D.dot (O.sub s.pos))
            ((O.sub s.pos).dot (O.sub s.pos) - s.radius * s.radius) with
      | [] => none
      | t :: ts =>
        if ts.foldl min t ≥ 0 then
          some ⟨O.add (D.smul (ts.foldl min t)),
                (O.add (D.smul (ts.foldl min t))).sub s.pos, Object.sphere s⟩
        else none := rfl

/-- The solver returns the empty list exactly when the discriminant is negative. -/
theorem solve_eq_nil_iff (a b c : ℝ) :
    solve_quadratic_equation a b c = [] ↔ b * b - 4 * a * c < 0 := by
  unfold solve_quadratic_equation
  dsimp only
  by_cases hd : 0 < b * b - 4 * a * c
  · rw [if_pos hd]
    simp only [List.cons_ne_nil, false_iff]
    linarith
  · rw [if_neg hd]
    by_cases hd0 : b * b - 4 * a * c = 0
    · rw [if_pos hd0]
      simp only [List.cons_ne_nil, false_iff]
      linarith
    · rw [if_neg hd0]
      simp only [true_iff]
      rcases lt_trichotomy (b * b - 4 * a * c) 0 with h | h | h
      · exact h
      · exact absurd h hd0
      · exact absurd h hd

/-- Concrete solver run for the inside-the-sphere ray: coefficients
`(1, 0, -1)` give the roots `[1, -1]`. -/
theorem solve_one_zero_negone : solve_quadratic_equation 1 0 (-1) = [1, -1] := by
  unfold solve_quadratic_equation
  dsimp only
  have h4 : (0 : ℝ) * 0 - 4 * 1 * (-1) = 4 := by norm_num
  rw [h4]
  rw [if_pos (by norm_num : (4 : ℝ) > 0), if_neg (by norm_num : ¬((0 : ℝ) > 0)), sqrt_four]
  norm_num

/-- Concrete solver run for the spec's sphere test ray: coefficients
`(1, -10, 24)` give the roots `[6, 4]`. -/
theorem solve_one_m10_24 : solve_quadratic_equation 1 (-10) 24 = [6, 4] := by
  unfold solve_quadratic_equation
  dsimp only
  have h4 : (-10 : ℝ) * -10 - 4 * 1 * 24 = 4 := by norm_num
  rw [h4]
  rw [if_pos (by norm_num : (4 : ℝ) > 0), if_neg (by norm_num : ¬((-10 : ℝ) > 0)), sqrt_four]
  norm_num

/-- C1 (amended): `Sphere.intersect` takes the minimum of ALL roots returned
by the solver — negative roots are not discarded first. A `Hit` is returned
exactly when the discriminant is non-negative and that minimum root is
non-negative, and then the hit parameter is the minimum root `tmin` (which is
the smallest root, hence the smallest non-negative root whenever every root
is non-negative), with `hit.pos = origin + direction * tmin` and
`hit.normal = hit.pos − center`. No `Hit` is returned iff the discriminant is
negative or SOME root is negative — in particular a ray origin inside the
sphere (one negative root) yields no `Hit`. -/
theorem sphere_intersect_correct (s : Sphere) (O : Position) (D : Vector) :
    (s.intersect O D = none ↔
      (2 * D.dot (O.sub s.pos)) * (2 * D.dot (O.sub s.pos)) -
          4 * 1 * ((O.sub s.pos).dot (O.sub s.pos) - s.radius * s.radius) < 0 ∨
      ∃ t ∈ solve_quadratic_equation 1 (2 * D.dot (O.sub s.pos))
          ((O.sub s.pos).dot (O.sub s.pos) - s.radius * s.radius), t < 0) ∧
    (∀ h : Hit, s.intersect O D = some h →
      ∃ tmin ∈ solve_quadratic_equation 1 (2 * D.dot (O.sub s.pos))
          ((O.sub s.pos).dot (O.sub s.pos) - s.radius * s.radius),
        0 ≤ tmin ∧
        (∀ t ∈ solve_quadratic_equation 1 (2 * D.dot (O.sub s.pos))
            ((O.sub s.pos).dot (O.sub s.pos) - s.radius * s.radius), tmin ≤ t) ∧
        h.pos = O.add (D.smul tmin) ∧
        h.normal = h.pos.sub s.pos ∧
        h.obj = Object.sphere s) := by
  constructor
  · rw [sphere_intersect_eq]
    cases hr : solve_quadratic_equation 1 (2 * D.dot (O.sub s.pos))
        ((O.sub s.pos).dot (O.sub s.pos) - s.radius * s.radius) with
    | nil =>
      constructor
      · intro _
        exact Or.inl ((solve_eq_nil_iff _ _ _).mp hr)
      · intro _
        rfl
    | cons t ts =>
      dsimp only
      by_cases h0 : ts.foldl min t ≥ 0
      · rw [if_pos h0]
        refine iff_of_false (by simp) ?_
        rintro (hd | ⟨x, hx, hxneg⟩)
        · exact List.cons_ne_nil t ts (hr ▸ (solve_eq_nil_iff _ _ _).mpr hd)
        · have := foldl_min_le ts t x hx
          linarith
      · rw [if_neg h0]
        refine iff_of_true rfl ?_
        exact Or.inr ⟨ts.foldl min t, foldl_min_mem ts t, lt_of_not_le h0⟩
  · intro h hsome
    rw [sphere_intersect_eq] at hsome
    cases hr : solve_quadratic_equation 1 (2 * D.dot (O.sub s.pos))
        ((O.sub s.pos).dot (O.sub s.pos) - s.radius * s.radius) with
    | nil =>
      rw [hr] at hsome
      exact absurd hsome (by simp)
    | cons t ts =>
      rw [hr] at hsome
      dsimp only at hsome
      by_cases h0 : ts.foldl min t ≥ 0
      · rw [if_pos h0] at hsome
        have he := Option.some.inj hsome
        refine ⟨ts.foldl min t, foldl_min_mem ts t, h0, ?_, ?_, ?_, ?_⟩
        · intro x hx
          exact foldl_min_le ts t x hx
        · rw [← he]
        · rw [← he]
        · rw [← he]
      · rw [if_neg h0] at hsome
        exact absurd hsome (by simp)

/-- C1 counterexample: for the ray with origin `(0,0,0)` INSIDE the unit
sphere centered at the origin and direction `(0,0,1)`, the solver returns the
roots `[1, -1]` — exactly one root is non-negative — yet `Sphere.intersect`
returns no `Hit`, because it takes `min(t_list) = -1 < 0` instead of
discarding the negative root. -/
theorem sphere_intersect_inside_counterexample :
    solve_quadratic_equation 1
        (2 * Vector.dot ⟨0, 0, 1⟩ (Vector.sub ⟨0, 0, 0⟩ ⟨0, 0, 0⟩))
        ((Vector.sub ⟨0, 0, 0⟩ ⟨0, 0, 0⟩).dot (Vector.sub ⟨0, 0, 0⟩ ⟨0, 0, 0⟩) - 1 * 1)
      = [1, -1] ∧
    Sphere.intersect ⟨⟨1, 1, 1⟩, 1, ⟨0, 0, 0⟩, 1⟩ ⟨0, 0, 0⟩ ⟨0, 0, 1⟩ = none := by
  have hb : 2 * Vector.dot ⟨0, 0, 1⟩ (Vector.sub ⟨0, 0, 0⟩ ⟨0, 0, 0⟩) = (0 : ℝ) := by
    simp [Vector.dot, Vector.sub]
  have hc : (Vector.sub ⟨0, 0, 0⟩ ⟨0, 0, 0⟩).dot (Vector.sub ⟨0, 0, 0⟩ ⟨0, 0, 0⟩) - 1 * 1
      = (-1 : ℝ) := by
    simp [Vector.dot, Vector.sub]
  constructor
  · rw [hb, hc]
    exact solve_one_zero_negone
  · rw [sphere_intersect_eq]
    have hs : solve_quadratic_equation 1
        (2 * Vector.dot ⟨0, 0, 1⟩
          (Vector.sub ⟨0, 0, 0⟩ (Sphere.pos ⟨⟨1, 1, 1⟩, 1, ⟨0, 0, 0⟩, 1⟩)))
        ((Vector.sub ⟨0, 0, 0⟩ (Sphere.pos ⟨⟨1, 1, 1⟩, 1, ⟨0, 0, 0⟩, 1⟩)).dot
            (Vector.sub ⟨0, 0, 0⟩ (Sphere.pos ⟨⟨1, 1, 1⟩, 1, ⟨0, 0, 0⟩, 1⟩)) -
          Sphere.radius ⟨⟨1, 1, 1⟩, 1, ⟨0, 0, 0⟩, 1⟩ * Sphere.radius ⟨⟨1, 1, 1⟩, 1, ⟨0, 0, 0⟩, 1⟩)
        = [1, -1] := by
      rw [show Sphere.pos ⟨⟨1, 1, 1⟩, 1, ⟨0, 0, 0⟩, 1⟩ = (⟨0, 0, 0⟩ : Vector) from rfl,
          show Sphere.radius ⟨⟨1, 1, 1⟩, 1, ⟨0, 0, 0⟩, 1⟩ = (1 : ℝ) from rfl, hb, hc]
      exact solve_one_zero_negone
    rw [hs]
    dsimp only
    rw [if_neg (by norm_num [List.foldl])]

/-- Witness for C1 at the spec's sphere test: the ray from `(0,0,-5)` toward
`(0,0,1)` against the unit sphere at the origin, whose hit is at parameter
`tmin = 4`, position `(0,0,-1)`, normal `(0,0,-1)`. -/
theorem sphere_intersect_correct_witness :
    ∃ tmin ∈ solve_quadratic_equation 1
        (2 * Vector.dot ⟨0, 0, 1⟩ (Vector.sub ⟨0, 0, -5⟩ ⟨0, 0, 0⟩))
        ((Vector.sub ⟨0, 0, -5⟩ ⟨0, 0, 0⟩).dot (Vector.sub ⟨0, 0, -5⟩ ⟨0, 0, 0⟩) - 1 * 1),
      0 ≤ tmin ∧
      (∀ t ∈ solve_quadratic_equation 1
          (2 * Vector.dot ⟨0, 0, 1⟩ (Vector.sub ⟨0, 0, -5⟩ ⟨0, 0, 0⟩))
          ((Vector.sub ⟨0, 0, -5⟩ ⟨0, 0, 0⟩).dot (Vector.sub ⟨0, 0, -5⟩ ⟨0, 0, 0⟩) - 1 * 1),
        tmin ≤ t) ∧
      (Hit.mk ⟨0, 0, -1⟩ ⟨0, 0, -1⟩ (Object.sphere ⟨⟨1, 1, 1⟩, 1, ⟨0, 0, 0⟩, 1⟩)).pos
        = Vector.add ⟨0, 0, -5⟩ (Vector.smul ⟨0, 0, 1⟩ tmin) ∧
      (Hit.mk ⟨0, 0, -1⟩ ⟨0, 0, -1⟩ (Object.sphere ⟨⟨1, 1, 1⟩, 1, ⟨0, 0, 0⟩, 1⟩)).normal
        = Vector.sub (Hit.mk ⟨0, 0, -1⟩ ⟨0, 0, -1⟩
            (Object.sphere ⟨⟨1, 1, 1⟩, 1, ⟨0, 0, 0⟩, 1⟩)).pos ⟨0, 0, 0⟩ ∧
      (Hit.mk ⟨0, 0, -1⟩ ⟨0, 0, -1⟩ (Object.sphere ⟨⟨1, 1, 1⟩, 1, ⟨0, 0, 0⟩, 1⟩)).obj
        = Object.sphere ⟨⟨1, 1, 1⟩, 1, ⟨0, 0, 0⟩, 1⟩ := by
  have hb : 2 * Vector.dot ⟨0, 0, 1⟩ (Vector.sub ⟨0, 0, -5⟩ ⟨0, 0, 0⟩) = (-10 : ℝ) := by
    simp [Vector.dot, Vector.sub]
    norm_num
  have hc : (Vector.sub ⟨0, 0, -5⟩ ⟨0, 0, 0⟩).dot (Vector.sub ⟨0, 0, -5⟩ ⟨0, 0, 0⟩) - 1 * 1
      = (24 : ℝ) := by
    simp [Vector.dot, Vector.sub]
    norm_num
  have hsome : Sphere.intersect ⟨⟨1, 1, 1⟩, 1, ⟨0, 0, 0⟩, 1⟩ ⟨0, 0, -5⟩ ⟨0, 0, 1⟩
      = some ⟨⟨0, 0, -1⟩, ⟨0, 0, -1⟩, Object.sphere ⟨⟨1, 1, 1⟩, 1, ⟨0, 0, 0⟩, 1⟩⟩ := by
    rw [sphere_intersect_eq]
    have hs : solve_quadratic_equation 1
        (2 * Vector.dot ⟨0, 0, 1⟩
          (Vector.sub ⟨0, 0, -5⟩ (Sphere.pos ⟨⟨1, 1, 1⟩, 1, ⟨0, 0, 0⟩, 1⟩)))
        ((Vector.sub ⟨0, 0, -5⟩ (Sphere.pos ⟨⟨1, 1, 1⟩, 1, ⟨0, 0, 0⟩, 1⟩)).dot
            (Vector.sub ⟨0, 0, -5⟩ (Sphere.pos ⟨⟨1, 1, 1⟩, 1, ⟨0, 0, 0⟩, 1⟩)) -
          Sphere.radius ⟨⟨1, 1, 1⟩, 1, ⟨0, 0, 0⟩, 1⟩ * Sphere.radius ⟨⟨1, 1, 1⟩, 1, ⟨0, 0, 0⟩, 1⟩)
        = [6, 4] := by
      rw [show Sphere.pos ⟨⟨1, 1, 1⟩, 1, ⟨0, 0, 0⟩, 1⟩ = (⟨0, 0, 0⟩ : Vector) from rfl,
          show Sphere.radius ⟨⟨1, 1, 1⟩, 1, ⟨0, 0, 0⟩, 1⟩ = (1 : ℝ) from rfl, hb, hc]
      exact solve_one_m10_24
    rw [hs]
    dsimp only
    rw [if_pos (by norm_num [List.foldl])]
    norm_num [List.foldl, Vector.add, Vector.smul, Vector.sub]
  exact (sphere_intersect_correct ⟨⟨1, 1, 1⟩, 1, ⟨0, 0, 0⟩, 1⟩ ⟨0, 0, -5⟩ ⟨0, 0, 1⟩).2
    ⟨⟨0, 0, -1⟩, ⟨0, 0, -1⟩, Object.sphere ⟨⟨1, 1, 1⟩, 1, ⟨0, 0, 0⟩, 1⟩⟩ hsome

/-! ## C2, C3: plane intersection -/

/-- Unfolding lemma for `Plane.intersect`. -/
theorem plane_intersect_eq (p : Plane) (O : Position) (D : Vector) :
    p.intersect O D =
      if D.dot p.normal = 0 then none
      else
        some ⟨O.add (D.smul ((p.pos.dot p.normal - O.dot p.normal) / D.dot p.normal)),
              p.normal.smul (if D.dot p.normal > 0 then 1 else -1),
              Object.plane p⟩ := rfl

/-- Dot distributes over vector subtraction. -/
theorem dot_sub (a b n : Vector) : (a.sub b).dot n = a.dot n - b.dot n := by
  simp [Vector.dot, Vector.sub]
  ring

/-- Dot of a scaled vector. -/
theorem smul_dot (v : Vector) (k : ℝ) (w : Vector) : (v.smul k).dot w = k * v.dot w := by
  simp [Vector.dot, Vector.smul]
  ring

/-- C3: `Plane.intersect(origin, direction)` returns no `Hit` exactly when
`direction · normal = 0`; otherwise it returns a `Hit` at position
`origin + direction * t` with `t = ((plane point − origin) · normal) / (direction · normal)`,
with no condition on the sign of `t` (intersections behind the ray origin are
not rejected). -/
theorem plane_intersect_total (p : Plane) (O : Position) (D : Vector) :
    (p.intersect O D = none ↔ D.dot p.normal = 0) ∧
    (D.dot p.normal ≠ 0 →
      ∃ h : Hit, p.intersect O D = some h ∧
        h.pos = O.add (D.smul ((p.pos.sub O).dot p.normal / D.dot p.normal)) ∧
        h.obj = Object.plane p) := by
  constructor
  · rw [plane_intersect_eq]
    by_cases hd : D.dot p.normal = 0
    · rw [if_pos hd]
      simp [hd]
    · rw [if_neg hd]
      simp [hd]
  · intro hd
    rw [plane_intersect_eq, if_neg hd]
    refine ⟨_, rfl, ?_, rfl⟩
    rw [dot_sub]

/-- Witness for C3: the spec's plane test ray — origin `(0,0,-5)`, direction
`(0,0,1)`, plane through the origin with normal `(0,0,1)` — has
`direction · normal = 1 ≠ 0` and hits at `(0,0,0)`. -/
theorem plane_intersect_total_witness :
    ∃ h : Hit,
      Plane.intersect ⟨⟨1, 1, 1⟩, 1, ⟨0, 0, 0⟩, ⟨0, 0, 1⟩⟩ ⟨0, 0, -5⟩ ⟨0, 0, 1⟩ = some h ∧
      h.pos = Vector.add ⟨0, 0, -5⟩
        (Vector.smul ⟨0, 0, 1⟩
          ((Vector.sub ⟨0, 0, 0⟩ ⟨0, 0, -5⟩).dot ⟨0, 0, 1⟩ / Vector.dot ⟨0, 0, 1⟩ ⟨0, 0, 1⟩)) ∧
      h.obj = Object.plane ⟨⟨1, 1, 1⟩, 1, ⟨0, 0, 0⟩, ⟨0, 0, 1⟩⟩ :=
  (plane_intersect_total ⟨⟨1, 1, 1⟩, 1, ⟨0, 0, 0⟩, ⟨0, 0, 1⟩⟩ ⟨0, 0, -5⟩ ⟨0, 0, 1⟩).2
    (by norm_num [Vector.dot])

/-- C2 (amended): with `denom = direction · normal` nonzero, the returned
`Hit`'s normal is the plane normal KEPT AS-IS when `denom > 0` and negated
when `denom < 0` — so the returned normal always points ALONG the incoming
ray: `returned normal · direction = |denom| > 0`. -/
theorem plane_intersect_normal_correct (p : Plane) (O : Position) (D : Vector) (h : Hit)
    (hd : D.dot p.normal ≠ 0) (hsome : p.intersect O D = some h) :
    h.normal = p.normal.smul (if D.dot p.normal > 0 then 1 else -1) ∧
    h.normal.dot D = |D.dot p.normal| ∧ 0 < h.normal.dot D := by
  rw [plane_intersect_eq, if_neg hd] at hsome
  have he := Option.some.inj hsome
  have hn : h.normal = p.normal.smul (if D.dot p.normal > 0 then 1 else -1) := by
    rw [← he]
  refine ⟨hn, ?_, ?_⟩
  · rw [hn, smul_dot]
    have hsymm : p.normal.dot D = D.dot p.normal := by
      simp [Vector.dot]
      ring
    rw [hsymm]
    rcases lt_or_gt_of_ne hd with hneg | hpos
    · rw [if_neg (by linarith), abs_of_neg hneg]
      ring
    · rw [if_pos hpos, abs_of_pos hpos]
      ring
  · rw [hn, smul_dot]
    have hsymm : p.normal.dot D = D.dot p.normal := by
      simp [Vector.dot]
      ring
    rw [hsymm]
    rcases lt_or_gt_of_ne hd with hneg | hpos
    · rw [if_neg (by linarith)]
      linarith
    · rw [if_pos hpos]
      linarith

/-- C2 counterexample: for direction `(0,0,1)` against the plane through the
origin with normal `(0,0,1)` (`denom = 1 > 0`), the returned normal is
`(0,0,1)` — the normal is NOT negated and does NOT oppose the ray
(`normal · direction = 1 > 0`), contradicting the claimed `(0,0,-1)`. -/
theorem plane_intersect_normal_counterexample :
    Plane.intersect ⟨⟨1, 1, 1⟩, 1, ⟨0, 0, 0⟩, ⟨0, 0, 1⟩⟩ ⟨0, 0, -5⟩ ⟨0, 0, 1⟩
      = some ⟨⟨0, 0, 0⟩, ⟨0, 0, 1⟩, Object.plane ⟨⟨1, 1, 1⟩, 1, ⟨0, 0, 0⟩, ⟨0, 0, 1⟩⟩⟩ ∧
    (⟨0, 0, 1⟩ : Vector) ≠ (⟨0, 0, -1⟩ : Vector) ∧
    Vector.dot ⟨0, 0, 1⟩ ⟨0, 0, 1⟩ > 0 := by
  refine ⟨?_, ?_, by norm_num [Vector.dot]⟩
  · rw [plane_intersect_eq]
    rw [if_neg (by norm_num [Vector.dot] : ¬(Vector.dot ⟨0, 0, 1⟩
        (Plane.normal ⟨⟨1, 1, 1⟩, 1, ⟨0, 0, 0⟩, ⟨0, 0, 1⟩⟩) = 0))]
    rw [if_pos (by norm_num [Vector.dot] : Vector.dot ⟨0, 0, 1⟩
        (Plane.normal ⟨⟨1, 1, 1⟩, 1, ⟨0, 0, 0⟩, ⟨0, 0, 1⟩⟩) > 0)]
    norm_num [Vector.dot, Vector.add, Vector.sub, Vector.smul]
  · intro hcontra
    have := congrArg Vector.z hcontra
    norm_num at this

/-- Witness for C2 (amended) at the same concrete plane test. -/
theorem plane_intersect_normal_correct_witness :
    (⟨0, 0, 1⟩ : Vector) = Vector.smul ⟨0, 0, 1⟩
      (if Vector.dot ⟨0, 0, 1⟩ ⟨0, 0, 1⟩ > 0 then 1 else -1) ∧
    Vector.dot ⟨0, 0, 1⟩ ⟨0, 0, 1⟩ = |Vector.dot (⟨0, 0, 1⟩ : Vector) ⟨0, 0, 1⟩| ∧
    (0 : ℝ) < Vector.dot ⟨0, 0, 1⟩ ⟨0, 0, 1⟩ := by
  have h := plane_intersect_normal_correct ⟨⟨1, 1, 1⟩, 1, ⟨0, 0, 0⟩, ⟨0, 0, 1⟩⟩
      ⟨0, 0, -5⟩ ⟨0, 0, 1⟩
      ⟨⟨0, 0, 0⟩, ⟨0, 0, 1⟩, Object.plane ⟨⟨1, 1, 1⟩, 1, ⟨0, 0, 0⟩, ⟨0, 0, 1⟩⟩⟩
      (by norm_num [Vector.dot])
      (by
        rw [plane_intersect_eq]
        rw [if_neg (by norm_num [Vector.dot] : ¬(Vector.dot ⟨0, 0, 1⟩
            (Plane.normal ⟨⟨1, 1, 1⟩, 1, ⟨0, 0, 0⟩, ⟨0, 0, 1⟩⟩) = 0))]
        rw [if_pos (by norm_num [Vector.dot] : Vector.dot ⟨0, 0, 1⟩
            (Plane.normal ⟨⟨1, 1, 1⟩, 1, ⟨0, 0, 0⟩, ⟨0, 0, 1⟩⟩) > 0)]
        norm_num [Vector.dot, Vector.add, Vector.sub, Vector.smul])
  exact h

/-! ## C5: closest-hit scene query -/

theorem intersectStep_of_none (O D : Vector) (acc : Option (Hit × ℝ)) (o : Object)
    (ho : o.intersect O D = none) : intersectStep O D acc o = acc := by
  unfold intersectStep
  rw [ho]

theorem intersectStep_of_some (O D : Vector) (acc : Option (Hit × ℝ)) (o : Object)
    (h : Hit) (ho : o.intersect O D = some h) :
    intersectStep O D acc o =
      match acc with
      | none => some (h, hitDistance O h)
      | some (_, dc) =>
        if hitDistance O h < dc then some (h, hitDistance O h) else acc := by
  unfold intersectStep
  rw [ho]

/-- Invariant of the scene-query loop once the accumulator holds a hit: the
final accumulator holds the FIRST hit of minimum distance among the current
hit and all hits reported by the remaining objects. -/
theorem foldl_intersectStep_some (O D : Vector) (objs : List Object) (h0 : Hit) :
    ∃ h1 l1 l2,
      objs.foldl (intersectStep O D) (some (h0, hitDistance O h0))
        = some (h1, hitDistance O h1) ∧
      h0 :: objs.filterMap (fun o => o.intersect O D) = l1 ++ h1 :: l2 ∧
      (∀ h' ∈ l1, hitDistance O h1 < hitDistance O h') ∧
      (∀ h' ∈ h0 :: objs.filterMap (fun o => o.intersect O D),
        hitDistance O h1 ≤ hitDistance O h') := by
  induction objs generalizing h0 with
  | nil =>
    refine ⟨h0, [], [], rfl, rfl, by simp, ?_⟩
    intro h' hh'
    simp only [List.filterMap_nil, List.mem_singleton] at hh'
    rw [hh']
  | cons o objs ih =>
    rcases ho : o.intersect O D with _ | h
    · rw [List.foldl_cons, intersectStep_of_none O D _ o ho,
        List.filterMap_cons_none (by simpa using ho)]
      exact ih h0
    · rw [List.foldl_cons, intersectStep_of_some O D _ o h ho,
        List.filterMap_cons_some (by simpa using ho)]
      dsimp only
      by_cases hlt : hitDistance O h < hitDistance O h0
      · rw [if_pos hlt]
        obtain ⟨h1, l1, l2, hfold, hdec, hl1, hmin⟩ := ih h
        have hminh : hitDistance O h1 ≤ hitDistance O h :=
          hmin h (List.mem_cons_self _ _)
        refine ⟨h1, h0 :: l1, l2, hfold, ?_, ?_, ?_⟩
        · rw [List.cons_append, ← hdec]
        · intro h' hh'
          rcases List.mem_cons.mp hh' with he | hh'
          · rw [he]
            exact lt_of_le_of_lt hminh hlt
          · exact hl1 h' hh'
        · intro h' hh'
          rcases List.mem_cons.mp hh' with he | hh'
          · rw [he]
            exact le_of_lt (lt_of_le_of_lt hminh hlt)
          · exact hmin h' hh'
      · rw [if_neg hlt]
        push_neg at hlt
        obtain ⟨h1, l1, l2, hfold, hdec, hl1, hmin⟩ := ih h0
        rcases l1 with _ | ⟨x, l1'⟩
        · simp only [List.nil_append] at hdec
          have he0 : h0 = h1 := (List.cons.injEq _ _ _ _).mp hdec |>.1
          have hl2 : objs.filterMap (fun o => o.intersect O D) = l2 :=
            (List.cons.injEq _ _ _ _).mp hdec |>.2
          refine ⟨h1, [], h :: l2, hfold, ?_, by simp, ?_⟩
          · rw [List.nil_append, ← he0, ← hl2]
          · intro h' hh'
            rcases List.mem_cons.mp hh' with he | hh'
            · rw [he, ← he0]
            · rcases List.mem_cons.mp hh' with he | hh'
              · rw [he, ← he0]
                exact hlt
              · exact hmin h' (List.mem_cons.mpr (Or.inr hh'))
        · simp only [List.cons_append] at hdec
          have hx : h0 = x := (List.cons.injEq _ _ _ _).mp hdec |>.1
          have hrest : objs.filterMap (fun o => o.intersect O D) = l1' ++ h1 :: l2 :=
            (List.cons.injEq _ _ _ _).mp hdec |>.2
          have hd0 : hitDistance O h1 < hitDistance O h0 := by
            rw [hx]
            exact hl1 x (List.mem_cons_self _ _)
          refine ⟨h1, h0 :: h :: l1', l2, hfold, ?_, ?_, ?_⟩
          · rw [List.cons_append, List.cons_append, hrest]
          · intro h' hh'
            rcases List.mem_cons.mp hh' with he | hh'
            · rw [he]
              exact hd0
            · rcases List.mem_cons.mp hh' with he | hh'
              · rw [he]
                exact lt_of_lt_of_le hd0 hlt
              · exact hl1 h' (List.mem_cons.mpr (Or.inr hh'))
          · intro h' hh'
            rcases List.mem_cons.mp hh' with he | hh'
            · rw [he]
              exact hmin h0 (List.mem_cons_self _ _)
            · rcases List.mem_cons.mp hh' with he | hh'
              · rw [he]
                exact le_of_lt (lt_of_lt_of_le hd0 hlt)
              · rw [hrest] at hmin
                exact hmin h' (by
                  rcases List.mem_append.mp (by rw [← hrest]; exact hh') with hm | hm
                  · exact List.mem_cons.mpr (Or.inr (List.mem_append.mpr (Or.inl hm)))
                  · exact List.mem_cons.mpr (Or.inr (List.mem_append.mpr (Or.inr hm))))

/-- The scene-query fold starting from an empty accumulator: either no object
hits (result `none`) or the result is the first hit of minimum distance. -/
theorem foldl_intersectStep_none (O D : Vector) (objs : List Object) :
    (objs.foldl (intersectStep O D) none = none ∧
      ∀ o ∈ objs, o.intersect O D = none) ∨
    ∃ h1 l1 l2,
      objs.foldl (intersectStep O D) none = some (h1, hitDistance O h1) ∧
      objs.filterMap (fun o => o.intersect O D) = l1 ++ h1 :: l2 ∧
      (∀ h' ∈ l1, hitDistance O h1 < hitDistance O h') ∧
      (∀ h' ∈ objs.filterMap (fun o => o.intersect O D),
        hitDistance O h1 ≤ hitDistance O h') := by
  induction objs with
  | nil => exact Or.inl ⟨rfl, by simp⟩
  | cons o objs ih =>
    rcases ho : o.intersect O D with _ | h
    · rw [List.foldl_cons, intersectStep_of_none O D _ o ho]
      rcases ih with ⟨hnone, hall⟩ | ⟨h1, l1, l2, hfold, hdec, hl1, hmin⟩
      · refine Or.inl ⟨hnone, ?_⟩
        intro o' ho'
        rcases List.mem_cons.mp ho' with he | ho'
        · rw [he]
          exact ho
        · exact hall o' ho'
      · refine Or.inr ⟨h1, l1, l2, hfold, ?_, hl1, ?_⟩
        · rw [List.filterMap_cons_none (by simpa using ho), hdec]
        · rw [List.filterMap_cons_none (by simpa using ho)]
          exact hmin
    · rw [List.foldl_cons, intersectStep_of_some O D _ o h ho]
      dsimp only
      obtain ⟨h1, l1, l2, hfold, hdec, hl1, hmin⟩ := foldl_intersectStep_some O D objs h
      refine Or.inr ⟨h1, l1, l2, hfold, ?_, hl1, ?_⟩
      · rw [List.filterMap_cons_some (by simpa using ho), hdec]
      · rw [List.filterMap_cons_some (by simpa using ho)]
        exact hmin

/-- C5: the scene query `intersect(origin, direction, scene)` returns `none`
iff no object in the list reports a hit; and when it returns a hit `h`, then
among the per-object hits (in scene order) `h` is one of them, its distance
`(h.pos − origin).size()` is a minimum over all of them, and every hit seen
BEFORE `h` has strictly larger distance — i.e. the first-seen hit is kept
when a later hit's distance is not strictly smaller. -/
theorem intersect_closest (O D : Vector) (scene : List Object) :
    (intersect O D scene = none ↔ ∀ o ∈ scene, o.intersect O D = none) ∧
    (∀ h : Hit, intersect O D scene = some h →
      ∃ l1 l2,
        scene.filterMap (fun o => o.intersect O D) = l1 ++ h :: l2 ∧
        (∀ h' ∈ l1, hitDistance O h < hitDistance O h') ∧
        (∀ h' ∈ scene.filterMap (fun o => o.intersect O D),
          hitDistance O h ≤ hitDistance O h')) := by
  unfold intersect
  rcases foldl_intersectStep_none O D scene with ⟨hnone, hall⟩ |
      ⟨h1, l1, l2, hfold, hdec, hl1, hmin⟩
  · constructor
    · rw [hnone]
      simp only [Option.map_none', true_iff]
      exact hall
    · intro h hsome
      rw [hnone] at hsome
      exact absurd hsome (by simp)
  · constructor
    · rw [hfold]
      simp only [Option.map_some', reduceCtorEq, false_iff]
      intro hall
      have : h1 ∈ scene.filterMap (fun o => o.intersect O D) := by
        rw [hdec]
        exact List.mem_append.mpr (Or.inr (List.mem_cons_self _ _))
      rcases List.mem_filterMap.mp this with ⟨o, hom, hoi⟩
      rw [hall o hom] at hoi
      exact absurd hoi (by simp)
    · intro h hsome
      rw [hfold] at hsome
      simp only [Option.map_some', Option.some.injEq] at hsome
      rw [← hsome]
      exact ⟨l1, l2, hdec, hl1, hmin⟩

/-- Concrete solver run: coefficients `(1, -20, 99)` give the roots `[11, 9]`. -/
theorem solve_one_m20_99 : solve_quadratic_equation 1 (-20) 99 = [11, 9] := by
  unfold solve_quadratic_equation
  dsimp only
  have h4 : (-20 : ℝ) * -20 - 4 * 1 * 99 = 4 := by norm_num
  rw [h4]
  rw [if_pos (by norm_num : (4 : ℝ) > 0), if_neg (by norm_num : ¬((-20 : ℝ) > 0)), sqrt_four]
  norm_num

/-- Evaluation helper: `Sphere.intersect` when the solver output and the sign
of the minimum root are known. -/
theorem sphere_intersect_eval (s : Sphere) (O : Position) (D : Vector)
    (t1 : ℝ) (ts : List ℝ)
    (hs : solve_quadratic_equation 1 (2 * D.dot (O.sub s.pos))
          ((O.sub s.pos).dot (O.sub s.pos) - s.radius * s.radius) = t1 :: ts)
    (hpos : ts.foldl min t1 ≥ 0) :
    s.intersect O D = some ⟨O.add (D.smul (ts.foldl min t1)),
      (O.add (D.smul (ts.foldl min t1))).sub s.pos, Object.sphere s⟩ := by
  rw [sphere_intersect_eq, hs]
  dsimp only
  rw [if_pos hpos]

/-- The hit of the near sphere at `(0,0,5)` for the ray `(0,0,0) → (0,0,1)`. -/
theorem near_sphere_hit :
    Sphere.intersect ⟨⟨1, 1, 1⟩, 1, ⟨0, 0, 5⟩, 1⟩ ⟨0, 0, 0⟩ ⟨0, 0, 1⟩
      = some ⟨⟨0, 0, 4⟩, ⟨0, 0, -1⟩, Object.sphere ⟨⟨1, 1, 1⟩, 1, ⟨0, 0, 5⟩, 1⟩⟩ := by
  have hs : solve_quadratic_equation 1
      (2 * Vector.dot ⟨0, 0, 1⟩ (Vector.sub ⟨0, 0, 0⟩ ⟨0, 0, 5⟩))
      ((Vector.sub ⟨0, 0, 0⟩ ⟨0, 0, 5⟩).dot (Vector.sub ⟨0, 0, 0⟩ ⟨0, 0, 5⟩) - 1 * 1)
      = [6, 4] := by
    rw [show 2 * Vector.dot ⟨0, 0, 1⟩ (Vector.sub ⟨0, 0, 0⟩ ⟨0, 0, 5⟩) = (-10 : ℝ) from by
          simp [Vector.dot, Vector.sub]; norm_num,
        show (Vector.sub ⟨0, 0, 0⟩ ⟨0, 0, 5⟩).dot (Vector.sub ⟨0, 0, 0⟩ ⟨0, 0, 5⟩) - 1 * 1
            = (24 : ℝ) from by simp [Vector.dot, Vector.sub]; norm_num]
    exact solve_one_m10_24
  have h := sphere_intersect_eval ⟨⟨1, 1, 1⟩, 1, ⟨0, 0, 5⟩, 1⟩ ⟨0, 0, 0⟩ ⟨0, 0, 1⟩ 6 [4] hs
      (by norm_num [List.foldl])
  rw [h]
  norm_num [List.foldl, Vector.add, Vector.smul, Vector.sub]

/-- The hit of the far sphere at `(0,0,10)` for the ray `(0,0,0) → (0,0,1)`. -/
theorem far_sphere_hit :
    Sphere.intersect ⟨⟨1, 1, 1⟩, 1, ⟨0, 0, 10⟩, 1⟩ ⟨0, 0, 0⟩ ⟨0, 0, 1⟩
      = some ⟨⟨0, 0, 9⟩, ⟨0, 0, -1⟩, Object.sphere ⟨⟨1, 1, 1⟩, 1, ⟨0, 0, 10⟩, 1⟩⟩ := by
  have hs : solve_quadratic_equation 1
      (2 * Vector.dot ⟨0, 0, 1⟩ (Vector.sub ⟨0, 0, 0⟩ ⟨0, 0, 10⟩))
      ((Vector.sub ⟨0, 0, 0⟩ ⟨0, 0, 10⟩).dot (Vector.sub ⟨0, 0, 0⟩ ⟨0, 0, 10⟩) - 1 * 1)
      = [11, 9] := by
    rw [show 2 * Vector.dot ⟨0, 0, 1⟩ (Vector.sub ⟨0, 0, 0⟩ ⟨0, 0, 10⟩) = (-20 : ℝ) from by
          simp [Vector.dot, Vector.sub]; norm_num,
        show (Vector.sub ⟨0, 0, 0⟩ ⟨0, 0, 10⟩).dot (Vector.sub ⟨0, 0, 0⟩ ⟨0, 0, 10⟩) - 1 * 1
            = (99 : ℝ) from by simp [Vector.dot, Vector.sub]; norm_num]
    exact solve_one_m20_99
  have h := sphere_intersect_eval ⟨⟨1, 1, 1⟩, 1, ⟨0, 0, 10⟩, 1⟩ ⟨0, 0, 0⟩ ⟨0, 0, 1⟩ 11 [9] hs
      (by norm_num [List.foldl])
  rw [h]
  norm_num [List.foldl, Vector.add, Vector.smul, Vector.sub]

/-- Distance of the near hit. -/
theorem near_hit_distance :
    hitDistance ⟨0, 0, 0⟩
      ⟨⟨0, 0, 4⟩, ⟨0, 0, -1⟩, Object.sphere ⟨⟨1, 1, 1⟩, 1, ⟨0, 0, 5⟩, 1⟩⟩ = 4 := by
  simp only [hitDistance, Vector.sub, Vector.size]
  norm_num
  rw [show (16 : ℝ) = 4 ^ 2 by norm_num, Real.sqrt_sq (by norm_num)]

/-- Distance of the far hit. -/
theorem far_hit_distance :
    hitDistance ⟨0, 0, 0⟩
      ⟨⟨0, 0, 9⟩, ⟨0, 0, -1⟩, Object.sphere ⟨⟨1, 1, 1⟩, 1, ⟨0, 0, 10⟩, 1⟩⟩ = 9 := by
  simp only [hitDistance, Vector.sub, Vector.size]
  norm_num
  rw [show (81 : ℝ) = 9 ^ 2 by norm_num, Real.sqrt_sq (by norm_num)]

/-- The scene query on the two-sphere scene returns the NEAR hit. -/
theorem two_sphere_scene_query :
    intersect ⟨0, 0, 0⟩ ⟨0, 0, 1⟩
        [Object.sphere ⟨⟨1, 1, 1⟩, 1, ⟨0, 0, 5⟩, 1⟩,
         Object.sphere ⟨⟨1, 1, 1⟩, 1, ⟨0, 0, 10⟩, 1⟩]
      = some ⟨⟨0, 0, 4⟩, ⟨0, 0, -1⟩, Object.sphere ⟨⟨1, 1, 1⟩, 1, ⟨0, 0, 5⟩, 1⟩⟩ := by
  unfold intersect
  rw [List.foldl_cons,
    intersectStep_of_some ⟨0, 0, 0⟩ ⟨0, 0, 1⟩ none
      (Object.sphere ⟨⟨1, 1, 1⟩, 1, ⟨0, 0, 5⟩, 1⟩) _ near_sphere_hit]
  rw [List.foldl_cons,
    intersectStep_of_some ⟨0, 0, 0⟩ ⟨0, 0, 1⟩ _
      (Object.sphere ⟨⟨1, 1, 1⟩, 1, ⟨0, 0, 10⟩, 1⟩) _ far_sphere_hit]
  dsimp only
  rw [near_hit_distance, far_hit_distance, if_neg (by norm_num : ¬((9 : ℝ) < 4))]
  rfl

/-- Witness for C5 on a scene of two spheres at distances 4 and 9 along the
same ray: the query returns the nearer hit, the per-object hit list splits
with no earlier hit, and the returned distance is minimal. -/
theorem intersect_closest_witness :
    ∃ l1 l2,
      List.filterMap
          (fun o => Object.intersect o ⟨0, 0, 0⟩ ⟨0, 0, 1⟩)
          [Object.sphere ⟨⟨1, 1, 1⟩, 1, ⟨0, 0, 5⟩, 1⟩,
           Object.sphere ⟨⟨1, 1, 1⟩, 1, ⟨0, 0, 10⟩, 1⟩]
        = l1 ++ (⟨⟨0, 0, 4⟩, ⟨0, 0, -1⟩,
            Object.sphere ⟨⟨1, 1, 1⟩, 1, ⟨0, 0, 5⟩, 1⟩⟩ : Hit) :: l2 ∧
      (∀ h' ∈ l1,
        hitDistance ⟨0, 0, 0⟩
            ⟨⟨0, 0, 4⟩, ⟨0, 0, -1⟩, Object.sphere ⟨⟨1, 1, 1⟩, 1, ⟨0, 0, 5⟩, 1⟩⟩
          < hitDistance ⟨0, 0, 0⟩ h') ∧
      (∀ h' ∈ List.filterMap
          (fun o => Object.intersect o ⟨0, 0, 0⟩ ⟨0, 0, 1⟩)
          [Object.sphere ⟨⟨1, 1, 1⟩, 1, ⟨0, 0, 5⟩, 1⟩,
           Object.sphere ⟨⟨1, 1, 1⟩, 1, ⟨0, 0, 10⟩, 1⟩],
        hitDistance ⟨0, 0, 0⟩
            ⟨⟨0, 0, 4⟩, ⟨0, 0, -1⟩, Object.sphere ⟨⟨1, 1, 1⟩, 1, ⟨0, 0, 5⟩, 1⟩⟩
          ≤ hitDistance ⟨0, 0, 0⟩ h') :=
  (intersect_closest ⟨0, 0, 0⟩ ⟨0, 0, 1⟩
      [Object.sphere ⟨⟨1, 1, 1⟩, 1, ⟨0, 0, 5⟩, 1⟩,
       Object.sphere ⟨⟨1, 1, 1⟩, 1, ⟨0, 0, 10⟩, 1⟩]).2
    ⟨⟨0, 0, 4⟩, ⟨0, 0, -1⟩, Object.sphere ⟨⟨1, 1, 1⟩, 1, ⟨0, 0, 5⟩, 1⟩⟩
    two_sphere_scene_query

/-! ## C7: color output truncation -/

/-- Truncation toward zero never increases the absolute value. -/
theorem pyInt_abs_le (r : ℝ) : |(pyInt r : ℝ)| ≤ |r| := by
  unfold pyInt
  by_cases h : 0 ≤ r
  · rw [if_pos h, abs_of_nonneg h,
      abs_of_nonneg (by exact_mod_cast Int.floor_nonneg.mpr h)]
    exact Int.floor_le r
  · push_neg at h
    rw [if_neg (not_le.mpr h), abs_of_neg h,
      abs_of_nonpos (by exact_mod_cast Int.ceil_le.mpr (by exact_mod_cast h.le))]
    exact neg_le_neg (Int.le_ceil r)

/-- Truncation toward zero drops strictly less than one unit. -/
theorem pyInt_abs_lt (r : ℝ) : |r| < |(pyInt r : ℝ)| + 1 := by
  unfold pyInt
  by_cases h : 0 ≤ r
  · rw [if_pos h, abs_of_nonneg h,
      abs_of_nonneg (by exact_mod_cast Int.floor_nonneg.mpr h)]
    exact Int.lt_floor_add_one r
  · push_neg at h
    rw [if_neg (not_le.mpr h), abs_of_neg h,
      abs_of_nonpos (by exact_mod_cast Int.ceil_le.mpr (by exact_mod_cast h.le))]
    have := Int.ceil_lt_add_one r
    linarith

/-- Truncation toward zero preserves the sign (weakly). -/
theorem pyInt_sign (r : ℝ) : 0 ≤ r * (pyInt r : ℝ) := by
  unfold pyInt
  by_cases h : 0 ≤ r
  · rw [if_pos h]
    exact mul_nonneg h (by exact_mod_cast Int.floor_nonneg.mpr h)
  · push_neg at h
    rw [if_neg (not_le.mpr h)]
    have hc : ((⌈r⌉ : ℤ) : ℝ) ≤ 0 := by
      exact_mod_cast Int.ceil_le.mpr (by exact_mod_cast h.le)
    nlinarith

/-- C7: `Color.to_rgb` returns the componentwise truncation toward zero of
the three channels — each output integer has absolute value `⌊|channel|⌋`
with the channel's sign (so no rounding takes place), and no clamping to
`[0, 255]` is performed: the out-of-range channels `(300, -2.5, 1000.75)`
pass through as `(300, -2, 1000)`. -/
theorem to_rgb_truncates (c : Color) :
    c.to_rgb = (pyInt c.red, pyInt c.green, pyInt c.blue) ∧
    (∀ r : ℝ, |(pyInt r : ℝ)| ≤ |r| ∧ |r| < |(pyInt r : ℝ)| + 1 ∧ 0 ≤ r * (pyInt r : ℝ)) ∧
    Color.to_rgb ⟨300, -2.5, 1000.75⟩ = (300, -2, 1000) := by
  refine ⟨rfl, fun r => ⟨pyInt_abs_le r, pyInt_abs_lt r, pyInt_sign r⟩, ?_⟩
  unfold Color.to_rgb pyInt
  dsimp only
  rw [if_pos (by norm_num : (0 : ℝ) ≤ 300),
    if_neg (by norm_num : ¬((0 : ℝ) ≤ -2.5)),
    if_pos (by norm_num : (0 : ℝ) ≤ 1000.75)]
  refine Prod.ext ?_ (Prod.ext ?_ ?_) <;> dsimp only
  · rw [show (300 : ℝ) = ((300 : ℤ) : ℝ) by norm_num, Int.floor_intCast]
  · rw [Int.ceil_eq_iff]
    norm_num
  · rw [Int.floor_eq_iff]
    norm_num

/-! ## C9: normalization safety -/

/-- The square of `Vector.size` is the sum of squared components. -/
theorem vector_size_sq (v : Vector) : v.size ^ 2 = v.x ^ 2 + v.y ^ 2 + v.z ^ 2 :=
  Real.sq_sqrt (by positivity)

/-- `pov_z` evaluates to 250 for the 90° field of view of `main`. -/
theorem pov_z_eq : pov_z = 250 := by
  unfold pov_z radians mainCamera
  dsimp only
  rw [show (90 : ℝ) / 2 * π / 180 = π / 4 by ring, Real.tan_pi_div_four]
  norm_num

/-- Normalizing a vector of nonzero magnitude yields magnitude exactly 1. -/
theorem normalize_size_one (v : Vector) (h : v.size ≠ 0) : v.normalize.size = 1 := by
  have hmk : v.normalize = ⟨v.x / v.size, v.y / v.size, v.z / v.size⟩ := rfl
  rw [hmk]
  have hs : Vector.size ⟨v.x / v.size, v.y / v.size, v.z / v.size⟩
      = Real.sqrt ((v.x / v.size) ^ 2 + (v.y / v.size) ^ 2 + (v.z / v.size) ^ 2) := rfl
  rw [hs]
  have harg : (v.x / v.size) ^ 2 + (v.y / v.size) ^ 2 + (v.z / v.size) ^ 2 = 1 := by
    have hsq := vector_size_sq v
    field_simp
    linarith
  rw [harg, Real.sqrt_one]

/-- The vector normalized to build the primary ray is never degenerate. -/
theorem primary_w_size_ne_zero (x y : ℝ) :
    ((primaryOrigin x y).sub ⟨250, 250, -pov_z⟩).size ≠ 0 := by
  have hmk : (primaryOrigin x y).sub ⟨250, 250, -pov_z⟩
      = ⟨0 + x - 250, 0 + y - 250, 0 + 0 - -pov_z⟩ := rfl
  rw [hmk]
  have hs : Vector.size ⟨0 + x - 250, 0 + y - 250, 0 + 0 - -pov_z⟩
      = Real.sqrt ((0 + x - 250) ^ 2 + (0 + y - 250) ^ 2 + (0 + 0 - -pov_z) ^ 2) := rfl
  rw [hs]
  rw [Real.sqrt_ne_zero']
  have : (0 + 0 - -pov_z) ^ 2 = 62500 := by
    rw [pov_z_eq]
    norm_num
  rw [this]
  positivity

/-- The dot product of a vector with itself is its squared magnitude. -/
theorem dot_self_eq_sq_size (v : Vector) : v.dot v = v.size ^ 2 := by
  rw [vector_size_sq]
  unfold Vector.dot
  ring

/-- The primary-ray direction is a unit vector. -/
theorem primaryDirection_unit (x y : ℝ) :
    (primaryDirection x y).dot (primaryDirection x y) = 1 := by
  have h1 : (primaryDirection x y).size = 1 :=
    normalize_size_one ((primaryOrigin x y).sub ⟨250, 250, -pov_z⟩)
      (primary_w_size_ne_zero x y)
  rw [dot_self_eq_sq_size, h1]
  norm_num

/-- Every primary-ray origin lies in the camera plane `z = 0`. -/
theorem primaryOrigin_z (x y : ℝ) : (primaryOrigin x y).z = 0 := by
  simp [primaryOrigin, mainCamera, Vector.add]

/-- A hit returned by `Sphere.intersect` for a unit direction lies exactly on
the sphere surface: `(hit.pos − center) · (hit.pos − center) = r²`. -/
theorem sphere_hit_on_sphere (s : Sphere) (O : Position) (D : Vector) (h : Hit)
    (hD : D.dot D = 1) (hsome : s.intersect O D = some h) :
    (h.pos.sub s.pos).dot (h.pos.sub s.pos) = s.radius * s.radius := by
  rw [sphere_intersect_eq] at hsome
  cases hr : solve_quadratic_equation 1 (2 * D.dot (O.sub s.pos))
      ((O.sub s.pos).dot (O.sub s.pos) - s.radius * s.radius) with
  | nil =>
    rw [hr] at hsome
    exact absurd hsome (by simp)
  | cons t ts =>
    rw [hr] at hsome
    dsimp only at hsome
    by_cases h0 : ts.foldl min t ≥ 0
    · rw [if_pos h0] at hsome
      have he := Option.some.inj hsome
      have hmem : ts.foldl min t ∈ solve_quadratic_equation 1 (2 * D.dot (O.sub s.pos))
          ((O.sub s.pos).dot (O.sub s.pos) - s.radius * s.radius) := by
        rw [hr]
        exact foldl_min_mem ts t
      have hroot := solve_roots 1 (2 * D.dot (O.sub s.pos))
          ((O.sub s.pos).dot (O.sub s.pos) - s.radius * s.radius) one_ne_zero
          (ts.foldl min t) hmem
      rw [← he]
      dsimp only
      simp only [Vector.dot, Vector.sub, Vector.add, Vector.smul] at hroot hD ⊢
      linear_combination hroot + (ts.foldl min t) ^ 2 * hD
    · rw [if_neg h0] at hsome
      exact absurd hsome (by simp)

/-- A hit returned by the scene query comes from some object of the scene. -/
theorem intersect_some_mem (O : Position) (D : Vector) (scene : List Object) (h : Hit)
    (hsome : intersect O D scene = some h) :
    ∃ o ∈ scene, o.intersect O D = some h := by
  unfold intersect at hsome
  rcases foldl_intersectStep_none O D scene with ⟨hnone, _⟩ |
      ⟨h1, l1, l2, hfold, hdec, _, _⟩
  · rw [hnone] at hsome
    exact absurd hsome (by simp)
  · rw [hfold] at hsome
    simp only [Option.map_some', Option.some.injEq] at hsome
    have hm : h1 ∈ scene.filterMap (fun o => o.intersect O D) := by
      rw [hdec]
      exact List.mem_append.mpr (Or.inr (List.mem_cons_self _ _))
    rcases List.mem_filterMap.mp hm with ⟨o, hom, hoi⟩
    rw [hsome] at hoi
    exact ⟨o, hom, hoi⟩

/-- A point whose z-offset from the sphere center already exceeds the radius
cannot coincide with a point on the sphere, so their difference has nonzero
magnitude. -/
theorem sub_size_ne_zero_of_off_sphere (s : Sphere) (h : Hit) (q : Vector)
    (hon : (h.pos.sub s.pos).dot (h.pos.sub s.pos) = s.radius * s.radius)
    (hq : s.radius * s.radius < (q.z - s.pos.z) ^ 2) :
    (q.sub h.pos).size ≠ 0 := by
  intro h0
  unfold Vector.size at h0
  simp only [Vector.sub] at h0
  have hle := Real.sqrt_eq_zero'.mp h0
  have hz2 : (q.z - h.pos.z) ^ 2 = 0 :=
    le_antisymm (by nlinarith [sq_nonneg (q.x - h.pos.x), sq_nonneg (q.y - h.pos.y)])
      (sq_nonneg _)
  have hz : q.z - h.pos.z = 0 := by
    have := sq_eq_zero_iff.mp hz2
    exact this
  have hzq : q.z = h.pos.z := by linarith
  rw [hzq] at hq
  simp only [Vector.dot, Vector.sub] at hon
  nlinarith [sq_nonneg (h.pos.x - s.pos.x), sq_nonneg (h.pos.y - s.pos.y)]

/-- C9: `Vector.normalize` divides each component by the magnitude, and for
every vector of nonzero magnitude the result has magnitude exactly 1 (hence
within the `1e-9` tolerance); the division-by-zero hazard requires magnitude
zero, and the rendering pipeline's ray constructions never produce it: for
every pixel the primary-ray vector has nonzero magnitude, and for every hit
returned by the primary scene query both the shadow-ray vector toward each
light (`light.pos - hit.pos`) and the view vector back toward the ray origin
(`origin - hit.pos`) have nonzero magnitude. -/
theorem normalize_correct :
    (∀ v : Vector, v.normalize = ⟨v.x / v.size, v.y / v.size, v.z / v.size⟩) ∧
    (∀ v : Vector, v.size ≠ 0 →
      v.normalize.size = 1 ∧ |v.normalize.size - 1| ≤ 1e-9) ∧
    (∀ x y : ℝ, ((primaryOrigin x y).sub ⟨250, 250, -pov_z⟩).size ≠ 0) ∧
    (∀ (x y : ℝ) (h : Hit),
      intersect (primaryOrigin x y) (primaryDirection x y) mainScene = some h →
        (∀ light ∈ mainLights, (light.pos.sub h.pos).size ≠ 0) ∧
        ((primaryOrigin x y).sub h.pos).size ≠ 0) := by
  refine ⟨fun v => rfl, ?_, primary_w_size_ne_zero, ?_⟩
  · intro v h
    have hone := normalize_size_one v h
    refine ⟨hone, ?_⟩
    rw [hone]
    norm_num
  · intro x y h hsome
    obtain ⟨o, hom, hoi⟩ := intersect_some_mem _ _ _ _ hsome
    simp only [mainScene, List.mem_cons, List.not_mem_nil, or_false] at hom
    have hunit := primaryDirection_unit x y
    have hz0 := primaryOrigin_z x y
    rcases hom with rfl | rfl | rfl | rfl
    all_goals
      have hon := sphere_hit_on_sphere _ (primaryOrigin x y) (primaryDirection x y) h
        hunit hoi
    all_goals constructor
    all_goals
      first
      | (intro light hl
         simp only [mainLights, List.mem_cons, List.not_mem_nil, or_false] at hl
         rw [hl]
         exact sub_size_ne_zero_of_off_sphere _ h _ hon (by norm_num))
      | (exact sub_size_ne_zero_of_off_sphere _ h _ hon (by rw [hz0] ; norm_num))

/-! ## C10: shadow-scene exclusion by field-value equality -/

/-- C10: the reduced scene for shadow rays drops EVERY object that compares
equal to the hit object by field values (dataclass `!=`), keeps everything
else in order, and in particular when the scene holds two objects with
identical field values and one of them is hit, the reduced scene is empty —
so neither can occlude a shadow ray for a hit on the other. -/
theorem sceneMinus_excludes (scene : List Object) (hitObj : Object) :
    (∀ o ∈ sceneMinus scene hitObj, o ≠ hitObj) ∧
    (∀ o ∈ scene, o ≠ hitObj → o ∈ sceneMinus scene hitObj) ∧
    (∀ o : Object, sceneMinus [o, o] o = []) ∧
    (∀ (o : Object) (O D : Vector), intersect O D (sceneMinus [o, o] o) = none) := by
  refine ⟨?_, ?_, ?_, ?_⟩
  · intro o ho
    have := List.of_mem_filter ho
    simpa using this
  · intro o ho hne
    exact List.mem_filter.mpr ⟨ho, by simpa using hne⟩
  · intro o
    unfold sceneMinus
    rw [List.filter_cons_of_neg (by simp), List.filter_cons_of_neg (by simp),
      List.filter_nil]
  · intro o O D
    unfold sceneMinus
    rw [List.filter_cons_of_neg (by simp), List.filter_cons_of_neg (by simp),
      List.filter_nil]
    rfl

/-- Witness for C10: a two-object scene where the second object is hit — the
first object, having different field values, stays in the reduced scene. -/
theorem sceneMinus_excludes_witness :
    Object.sphere ⟨⟨1, 1, 1⟩, 1, ⟨0, 0, 5⟩, 1⟩ ∈
      sceneMinus
        [Object.sphere ⟨⟨1, 1, 1⟩, 1, ⟨0, 0, 5⟩, 1⟩,
         Object.sphere ⟨⟨1, 1, 1⟩, 1, ⟨0, 0, 10⟩, 1⟩]
        (Object.sphere ⟨⟨1, 1, 1⟩, 1, ⟨0, 0, 10⟩, 1⟩) := by
  refine (sceneMinus_excludes
      [Object.sphere ⟨⟨1, 1, 1⟩, 1, ⟨0, 0, 5⟩, 1⟩,
       Object.sphere ⟨⟨1, 1, 1⟩, 1, ⟨0, 0, 10⟩, 1⟩]
      (Object.sphere ⟨⟨1, 1, 1⟩, 1, ⟨0, 0, 10⟩, 1⟩)).2.1
    (Object.sphere ⟨⟨1, 1, 1⟩, 1, ⟨0, 0, 5⟩, 1⟩) (by simp) ?_
  intro hcontra
  have h1 := congrArg Object.color hcontra
  have h2 : Sphere.pos ⟨⟨1, 1, 1⟩, 1, ⟨0, 0, 5⟩, 1⟩
      = Sphere.pos ⟨⟨1, 1, 1⟩, 1, ⟨0, 0, 10⟩, 1⟩ := by
    have := Object.sphere.inj hcontra
    rw [this]
  have h3 := congrArg Vector.z h2
  norm_num at h3

/-! ## C8: camera / frame driver -/

/-- `Sphere.intersect` misses when the discriminant condition fails, for a
direction given as `w.normalize`. -/
theorem sphere_intersect_none_of (s : Sphere) (O : Position) (w : Vector)
    (hS : 0 < w.x ^ 2 + w.y ^ 2 + w.z ^ 2)
    (hmiss : (w.dot (O.sub s.pos)) ^ 2
        < (w.x ^ 2 + w.y ^ 2 + w.z ^ 2) *
          ((O.sub s.pos).dot (O.sub s.pos) - s.radius * s.radius)) :
    s.intersect O w.normalize = none := by
  rw [sphere_intersect_eq]
  have hnil : solve_quadratic_equation 1 (2 * (w.normalize).dot (O.sub s.pos))
      ((O.sub s.pos).dot (O.sub s.pos) - s.radius * s.radius) = [] := by
    rw [solve_eq_nil_iff]
    have hsz : w.size ^ 2 = w.x ^ 2 + w.y ^ 2 + w.z ^ 2 := vector_size_sq w
    have hszpos : (0 : ℝ) < w.size := Real.sqrt_pos.mpr hS
    have hdot : (w.normalize).dot (O.sub s.pos) = w.dot (O.sub s.pos) / w.size := by
      show w.x / w.size * (O.sub s.pos).x + w.y / w.size * (O.sub s.pos).y +
          w.z / w.size * (O.sub s.pos).z = _
      unfold Vector.dot
      ring
    rw [hdot]
    have hb : 2 * (w.dot (O.sub s.pos) / w.size) * (2 * (w.dot (O.sub s.pos) / w.size))
        = 4 * (w.dot (O.sub s.pos) ^ 2 / w.size ^ 2) := by
      ring
    rw [hb, hsz]
    have h1 : w.dot (O.sub s.pos) ^ 2 / (w.x ^ 2 + w.y ^ 2 + w.z ^ 2)
        < (O.sub s.pos).dot (O.sub s.pos) - s.radius * s.radius :=
      (div_lt_iff₀ hS).mpr (by linarith [hmiss])
    linarith
  rw [hnil]

/-- The primary-ray origin of the corner pixel `(0, 0)`. -/
theorem corner_origin : primaryOrigin 0 0 = (⟨0, 0, 0⟩ : Vector) := by
  simp [primaryOrigin, mainCamera, Vector.add]

/-- The pre-normalization primary-ray vector of the corner pixel. -/
theorem corner_w :
    (primaryOrigin 0 0).sub ⟨250, 250, -pov_z⟩ = (⟨-250, -250, 250⟩ : Vector) := by
  rw [corner_origin]
  simp [Vector.sub, pov_z_eq]

/-- The primary ray of the corner pixel `(0, 0)` misses the whole scene. -/
theorem corner_pixel_miss :
    intersect (primaryOrigin 0 0) (primaryDirection 0 0) mainScene = none := by
  have hD : primaryDirection 0 0 = Vector.normalize ⟨-250, -250, 250⟩ := by
    unfold primaryDirection
    rw [corner_w]
  have m1 : Object.intersect (Object.sphere ⟨⟨0x26, 0x60, 0x53⟩, 0.3, ⟨250, 250, 150⟩, 100⟩)
      (primaryOrigin 0 0) (primaryDirection 0 0) = none := by
    show Sphere.intersect _ _ _ = none
    rw [hD, corner_origin]
    apply sphere_intersect_none_of
    · norm_num
    · norm_num [Vector.dot, Vector.sub]
  have m2 : Object.intersect (Object.sphere ⟨⟨0x2A, 0x9D, 0x8F⟩, 0.8, ⟨400, 250, 120⟩, 100⟩)
      (primaryOrigin 0 0) (primaryDirection 0 0) = none := by
    show Sphere.intersect _ _ _ = none
    rw [hD, corner_origin]
    apply sphere_intersect_none_of
    · norm_num
    · norm_num [Vector.dot, Vector.sub]
  have m3 : Object.intersect (Object.sphere ⟨⟨0xE9, 0xC4, 0x6A⟩, 0.4, ⟨300, 150, 200⟩, 60⟩)
      (primaryOrigin 0 0) (primaryDirection 0 0) = none := by
    show Sphere.intersect _ _ _ = none
    rw [hD, corner_origin]
    apply sphere_intersect_none_of
    · norm_num
    · norm_num [Vector.dot, Vector.sub]
  have m4 : Object.intersect (Object.sphere ⟨⟨0xF4, 0xA2, 0x61⟩, 0.3, ⟨250, 250, 130⟩, 50⟩)
      (primaryOrigin 0 0) (primaryDirection 0 0) = none := by
    show Sphere.intersect _ _ _ = none
    rw [hD, corner_origin]
    apply sphere_intersect_none_of
    · norm_num
    · norm_num [Vector.dot, Vector.sub]
  unfold intersect mainScene
  rw [List.foldl_cons, intersectStep_of_none _ _ _ _ m1,
    List.foldl_cons, intersectStep_of_none _ _ _ _ m2,
    List.foldl_cons, intersectStep_of_none _ _ _ _ m3,
    List.foldl_cons, intersectStep_of_none _ _ _ _ m4,
    List.foldl_nil]
  rfl

/-- C8: `pov_z` equals `(frame height / 2) / tan(fov/2 in radians)` and is a
single constant (independent of the pixel); every pixel's primary ray has
origin `camera position + (x, y, 0)` and direction
`normalize(origin − (250, 250, −pov_z))` aimed at the fixed focal constants
`(250, 250)`; and a pixel whose primary ray hits nothing gets the background
color. -/
theorem frame_driver_correct :
    pov_z = (mainCamera.height / 2) / Real.tan (radians (mainCamera.fov / 2)) ∧
    (∀ x y : ℝ, primaryOrigin x y = mainCamera.pos.add ⟨x, y, 0⟩) ∧
    (∀ x y : ℝ, primaryDirection x y
        = ((mainCamera.pos.add ⟨x, y, 0⟩).sub ⟨250, 250, -pov_z⟩).normalize) ∧
    (∀ x y : ℝ,
      intersect (primaryOrigin x y) (primaryDirection x y) mainScene = none →
        renderPixel x y = background) := by
  refine ⟨?_, fun x y => rfl, fun x y => rfl, ?_⟩
  · unfold pov_z mainCamera
    norm_num
  · intro x y hmiss
    unfold renderPixel
    rw [hmiss]

/-- Witness for C8 at the corner pixel `(0, 0)`, whose primary ray misses
every sphere of the scene. -/
theorem frame_driver_correct_witness : renderPixel 0 0 = background :=
  frame_driver_correct.2.2.2 0 0 corner_pixel_miss

/-! ## C6: shading accumulation -/

/-- Adding the zero color on the right is the identity. -/
theorem color_add_zero (c : Color) : c.add ⟨0, 0, 0⟩ = c := by
  simp [Color.add]

/-- Adding the zero color on the left is the identity. -/
theorem color_zero_add (c : Color) : Color.add ⟨0, 0, 0⟩ c = c := by
  simp [Color.add]

/-- Color addition is associative. -/
theorem color_add_assoc (a b c : Color) : (a.add b).add c = a.add (b.add c) := by
  simp only [Color.add, Color.mk.injEq]
  refine ⟨?_, ?_, ?_⟩ <;> ring

/-- `colorSum` over a cons. -/
theorem colorSum_cons (x : Color) (l : List Color) :
    colorSum (x :: l) = x.add (colorSum l) := rfl

/-- The loop body of the light loop of `main`, written as adding the
specification's per-light contribution. -/
theorem shade_step_eq (swo : List Object) (h : Hit) :
    (fun (color : Color) (light : Light) =>
      match intersect h.pos ((light.pos.sub h.pos).normalize) swo with
      | some _ => color
      | none =>
        color.add (h.obj.color.mul (h.obj.albedo / π * light.intensity *
          max 0 (h.normal.dot ((light.pos.sub h.pos).normalize)))))
    = fun (color : Color) (light : Light) => color.add (lightContrib swo h light) := by
  funext color light
  rcases ho : intersect h.pos ((light.pos.sub h.pos).normalize) swo with _ | hh
  · simp [lightContrib, ho]
  · simp [lightContrib, ho, color_add_zero]

/-- Folding color additions equals adding the componentwise sum. -/
theorem foldl_color_add (g : Light → Color) (lights : List Light) (c : Color) :
    lights.foldl (fun acc l => acc.add (g l)) c = c.add (colorSum (lights.map g)) := by
  induction lights generalizing c with
  | nil => simp [colorSum, color_add_zero]
  | cons l ls ih =>
    rw [List.foldl_cons, ih, List.map_cons, colorSum_cons, color_add_assoc]

/-- C6: for every hit, the shading of `main` accumulates — starting from the
zero color — one contribution per light (zero when the shadow query on the
scene minus the hit object returns any hit, otherwise
`hit.obj.color * (albedo/π * intensity * max(0, normal·lightDir))` with the
hit normal not renormalized), then adds the ambient term
`hit.obj.color * (albedo/π * 0.03 * max(0, normal · normalize(origin − hit.pos)))`,
and a pixel whose primary ray produces hit `h` gets exactly this color. -/
theorem shade_accumulates :
    (∀ (scene : List Object) (lights : List Light) (origin : Position) (h : Hit),
      shade scene lights origin h
        = (colorSum (lights.map (lightContrib (sceneMinus scene h.obj) h))).add
            (h.obj.color.mul (h.obj.albedo / π * 0.03 *
              max 0 (h.normal.dot ((origin.sub h.pos).normalize))))) ∧
    (∀ (x y : ℝ) (h : Hit),
      intersect (primaryOrigin x y) (primaryDirection x y) mainScene = some h →
        renderPixel x y = shade mainScene mainLights (primaryOrigin x y) h) := by
  constructor
  · intro scene lights origin h
    unfold shade
    dsimp only
    rw [shade_step_eq (sceneMinus scene h.obj) h, foldl_color_add, color_zero_add]
  · intro x y h hsome
    unfold renderPixel
    rw [hsome]

/-- Concrete solver run: coefficients `(1, -300, 12500)` give `[250, 50]`. -/
theorem solve_one_m300_12500 : solve_quadratic_equation 1 (-300) 12500 = [250, 50] := by
  unfold solve_quadratic_equation
  dsimp only
  have hd : (-300 : ℝ) * -300 - 4 * 1 * 12500 = 40000 := by norm_num
  rw [hd]
  rw [if_pos (by norm_num : (40000 : ℝ) > 0), if_neg (by norm_num : ¬((-300 : ℝ) > 0)),
    show (40000 : ℝ) = 200 ^ 2 by norm_num, Real.sqrt_sq (by norm_num : (0 : ℝ) ≤ 200)]
  norm_num

/-- Concrete solver run: coefficients `(1, -260, 14400)` give `[180, 80]`. -/
theorem solve_one_m260_14400 : solve_quadratic_equation 1 (-260) 14400 = [180, 80] := by
  unfold solve_quadratic_equation
  dsimp only
  have hd : (-260 : ℝ) * -260 - 4 * 1 * 14400 = 10000 := by norm_num
  rw [hd]
  rw [if_pos (by norm_num : (10000 : ℝ) > 0), if_neg (by norm_num : ¬((-260 : ℝ) > 0)),
    show (10000 : ℝ) = 100 ^ 2 by norm_num, Real.sqrt_sq (by norm_num : (0 : ℝ) ≤ 100)]
  norm_num

/-- `Vector.normalize` written out componentwise. -/
theorem normalize_eq (v : Vector) :
    v.normalize = ⟨v.x / v.size, v.y / v.size, v.z / v.size⟩ := rfl

/-- Normalizing the center-pixel primary vector gives `(0, 0, 1)`. -/
theorem center_norm : Vector.normalize ⟨0, 0, 250⟩ = (⟨0, 0, 1⟩ : Vector) := by
  rw [normalize_eq]
  have hs : Vector.size ⟨0, 0, 250⟩ = 250 := by
    show Real.sqrt ((0 : ℝ) ^ 2 + 0 ^ 2 + 250 ^ 2) = 250
    rw [show (0 : ℝ) ^ 2 + 0 ^ 2 + 250 ^ 2 = 250 ^ 2 by norm_num,
      Real.sqrt_sq (by norm_num : (0 : ℝ) ≤ 250)]
  rw [hs]
  norm_num

/-- The primary-ray origin of the center pixel `(250, 250)`. -/
theorem center_origin : primaryOrigin 250 250 = (⟨250, 250, 0⟩ : Vector) := by
  simp [primaryOrigin, mainCamera, Vector.add]

/-- The pre-normalization primary-ray vector of the center pixel. -/
theorem center_w :
    (primaryOrigin 250 250).sub ⟨250, 250, -pov_z⟩ = (⟨0, 0, 250⟩ : Vector) := by
  rw [center_origin]
  simp [Vector.sub, pov_z_eq]

/-- The primary-ray direction of the center pixel is `(0, 0, 1)`. -/
theorem center_direction : primaryDirection 250 250 = (⟨0, 0, 1⟩ : Vector) := by
  unfold primaryDirection
  rw [center_w, center_norm]

/-- The center ray hits the first scene sphere at `(250, 250, 50)`. -/
theorem center_hit_s1 :
    Sphere.intersect ⟨⟨0x26, 0x60, 0x53⟩, 0.3, ⟨250, 250, 150⟩, 100⟩ ⟨250, 250, 0⟩ ⟨0, 0, 1⟩
      = some ⟨⟨250, 250, 50⟩, ⟨0, 0, -100⟩,
          Object.sphere ⟨⟨0x26, 0x60, 0x53⟩, 0.3, ⟨250, 250, 150⟩, 100⟩⟩ := by
  have hs : solve_quadratic_equation 1
      (2 * Vector.dot ⟨0, 0, 1⟩ (Vector.sub ⟨250, 250, 0⟩ ⟨250, 250, 150⟩))
      ((Vector.sub ⟨250, 250, 0⟩ ⟨250, 250, 150⟩).dot
          (Vector.sub ⟨250, 250, 0⟩ ⟨250, 250, 150⟩) - 100 * 100)
      = [250, 50] := by
    rw [show 2 * Vector.dot ⟨0, 0, 1⟩ (Vector.sub ⟨250, 250, 0⟩ ⟨250, 250, 150⟩)
          = (-300 : ℝ) from by norm_num [Vector.dot, Vector.sub],
        show (Vector.sub ⟨250, 250, 0⟩ ⟨250, 250, 150⟩).dot
            (Vector.sub ⟨250, 250, 0⟩ ⟨250, 250, 150⟩) - 100 * 100
          = (12500 : ℝ) from by norm_num [Vector.dot, Vector.sub]]
    exact solve_one_m300_12500
  have h := sphere_intersect_eval ⟨⟨0x26, 0x60, 0x53⟩, 0.3, ⟨250, 250, 150⟩, 100⟩
      ⟨250, 250, 0⟩ ⟨0, 0, 1⟩ 250 [50] hs (by norm_num [List.foldl])
  rw [h]
  norm_num [List.foldl, Vector.add, Vector.smul, Vector.sub]

/-- The center ray hits the fourth scene sphere at `(250, 250, 80)`. -/
theorem center_hit_s4 :
    Sphere.intersect ⟨⟨0xF4, 0xA2, 0x61⟩, 0.3, ⟨250, 250, 130⟩, 50⟩ ⟨250, 250, 0⟩ ⟨0, 0, 1⟩
      = some ⟨⟨250, 250, 80⟩, ⟨0, 0, -50⟩,
          Object.sphere ⟨⟨0xF4, 0xA2, 0x61⟩, 0.3, ⟨250, 250, 130⟩, 50⟩⟩ := by
  have hs : solve_quadratic_equation 1
      (2 * Vector.dot ⟨0, 0, 1⟩ (Vector.sub ⟨250, 250, 0⟩ ⟨250, 250, 130⟩))
      ((Vector.sub ⟨250, 250, 0⟩ ⟨250, 250, 130⟩).dot
          (Vector.sub ⟨250, 250, 0⟩ ⟨250, 250, 130⟩) - 50 * 50)
      = [180, 80] := by
    rw [show 2 * Vector.dot ⟨0, 0, 1⟩ (Vector.sub ⟨250, 250, 0⟩ ⟨250, 250, 130⟩)
          = (-260 : ℝ) from by norm_num [Vector.dot, Vector.sub],
        show (Vector.sub ⟨250, 250, 0⟩ ⟨250, 250, 130⟩).dot
            (Vector.sub ⟨250, 250, 0⟩ ⟨250, 250, 130⟩) - 50 * 50
          = (14400 : ℝ) from by norm_num [Vector.dot, Vector.sub]]
    exact solve_one_m260_14400
  have h := sphere_intersect_eval ⟨⟨0xF4, 0xA2, 0x61⟩, 0.3, ⟨250, 250, 130⟩, 50⟩
      ⟨250, 250, 0⟩ ⟨0, 0, 1⟩ 180 [80] hs (by norm_num [List.foldl])
  rw [h]
  norm_num [List.foldl, Vector.add, Vector.smul, Vector.sub]

/-- The center ray misses the second scene sphere. -/
theorem center_miss_s2 :
    Sphere.intersect ⟨⟨0x2A, 0x9D, 0x8F⟩, 0.8, ⟨400, 250, 120⟩, 100⟩ ⟨250, 250, 0⟩ ⟨0, 0, 1⟩
      = none := by
  rw [← center_norm]
  apply sphere_intersect_none_of
  · norm_num
  · norm_num [Vector.dot, Vector.sub]

/-- The center ray misses the third scene sphere. -/
theorem center_miss_s3 :
    Sphere.intersect ⟨⟨0xE9, 0xC4, 0x6A⟩, 0.4, ⟨300, 150, 200⟩, 60⟩ ⟨250, 250, 0⟩ ⟨0, 0, 1⟩
      = none := by
  rw [← center_norm]
  apply sphere_intersect_none_of
  · norm_num
  · norm_num [Vector.dot, Vector.sub]

/-- Distance of the center-pixel hit on the first sphere. -/
theorem center_hit_s1_distance :
    hitDistance ⟨250, 250, 0⟩
      ⟨⟨250, 250, 50⟩, ⟨0, 0, -100⟩,
        Object.sphere ⟨⟨0x26, 0x60, 0x53⟩, 0.3, ⟨250, 250, 150⟩, 100⟩⟩ = 50 := by
  simp only [hitDistance, Vector.sub, Vector.size]
  norm_num
  rw [show (2500 : ℝ) = 50 ^ 2 by norm_num, Real.sqrt_sq (by norm_num)]

/-- Distance of the center-pixel hit on the fourth sphere. -/
theorem center_hit_s4_distance :
    hitDistance ⟨250, 250, 0⟩
      ⟨⟨250, 250, 80⟩, ⟨0, 0, -50⟩,
        Object.sphere ⟨⟨0xF4, 0xA2, 0x61⟩, 0.3, ⟨250, 250, 130⟩, 50⟩⟩ = 80 := by
  simp only [hitDistance, Vector.sub, Vector.size]
  norm_num
  rw [show (6400 : ℝ) = 80 ^ 2 by norm_num, Real.sqrt_sq (by norm_num)]

/-- The full scene query at the center pixel returns the near hit on the
first sphere. -/
theorem center_pixel_hit :
    intersect (primaryOrigin 250 250) (primaryDirection 250 250) mainScene
      = some ⟨⟨250, 250, 50⟩, ⟨0, 0, -100⟩,
          Object.sphere ⟨⟨0x26, 0x60, 0x53⟩, 0.3, ⟨250, 250, 150⟩, 100⟩⟩ := by
  rw [center_origin, center_direction]
  unfold intersect mainScene
  rw [List.foldl_cons,
    intersectStep_of_some ⟨250, 250, 0⟩ ⟨0, 0, 1⟩ none
      (Object.sphere ⟨⟨0x26, 0x60, 0x53⟩, 0.3, ⟨250, 250, 150⟩, 100⟩) _ center_hit_s1]
  rw [List.foldl_cons,
    intersectStep_of_none ⟨250, 250, 0⟩ ⟨0, 0, 1⟩ _
      (Object.sphere ⟨⟨0x2A, 0x9D, 0x8F⟩, 0.8, ⟨400, 250, 120⟩, 100⟩) center_miss_s2]
  rw [List.foldl_cons,
    intersectStep_of_none ⟨250, 250, 0⟩ ⟨0, 0, 1⟩ _
      (Object.sphere ⟨⟨0xE9, 0xC4, 0x6A⟩, 0.4, ⟨300, 150, 200⟩, 60⟩) center_miss_s3]
  rw [List.foldl_cons,
    intersectStep_of_some ⟨250, 250, 0⟩ ⟨0, 0, 1⟩ _
      (Object.sphere ⟨⟨0xF4, 0xA2, 0x61⟩, 0.3, ⟨250, 250, 130⟩, 50⟩) _ center_hit_s4]
  dsimp only
  rw [center_hit_s1_distance, center_hit_s4_distance,
    if_neg (by norm_num : ¬((80 : ℝ) < 50)), List.foldl_nil]
  rfl

/-- Witness for C6 at the center pixel `(250, 250)`, whose primary ray hits
the first sphere at `(250, 250, 50)`. -/
theorem shade_accumulates_witness :
    renderPixel 250 250 = shade mainScene mainLights (primaryOrigin 250 250)
      ⟨⟨250, 250, 50⟩, ⟨0, 0, -100⟩,
        Object.sphere ⟨⟨0x26, 0x60, 0x53⟩, 0.3, ⟨250, 250, 150⟩, 100⟩⟩ :=
  shade_accumulates.2 250 250 _ center_pixel_hit

/-- Witness for C9 at `v = (3, 4, 0)` (magnitude 5), at pixel `(0, 0)` for
the primary-ray vector, and at the center pixel's hit on the first sphere
for the shadow-ray and view vectors. -/
theorem normalize_correct_witness :
    Vector.size ⟨(3 : ℝ), 4, 0⟩ ≠ 0 ∧
    (Vector.normalize ⟨(3 : ℝ), 4, 0⟩).size = 1 ∧
    |(Vector.normalize ⟨(3 : ℝ), 4, 0⟩).size - 1| ≤ 1e-9 ∧
    ((primaryOrigin 0 0).sub ⟨250, 250, -pov_z⟩).size ≠ 0 ∧
    (∀ light ∈ mainLights,
      (light.pos.sub (Hit.mk ⟨250, 250, 50⟩ ⟨0, 0, -100⟩
        (Object.sphere ⟨⟨0x26, 0x60, 0x53⟩, 0.3, ⟨250, 250, 150⟩, 100⟩)).pos).size ≠ 0) ∧
    ((primaryOrigin 250 250).sub (Hit.mk ⟨250, 250, 50⟩ ⟨0, 0, -100⟩
        (Object.sphere ⟨⟨0x26, 0x60, 0x53⟩, 0.3, ⟨250, 250, 150⟩, 100⟩)).pos).size ≠ 0 := by
  have h5 : Vector.size ⟨(3 : ℝ), 4, 0⟩ = 5 := by
    have hs : Vector.size ⟨(3 : ℝ), 4, 0⟩
        = Real.sqrt ((3 : ℝ) ^ 2 + 4 ^ 2 + 0 ^ 2) := rfl
    rw [hs, show (3 : ℝ) ^ 2 + 4 ^ 2 + 0 ^ 2 = 5 ^ 2 by norm_num,
      Real.sqrt_sq (by norm_num)]
  have hne : Vector.size ⟨(3 : ℝ), 4, 0⟩ ≠ 0 := by
    rw [h5]
    norm_num
  obtain ⟨h1, h2⟩ := normalize_correct.2.1 ⟨(3 : ℝ), 4, 0⟩ hne
  obtain ⟨hshadow, hview⟩ := normalize_correct.2.2.2 250 250
    (Hit.mk ⟨250, 250, 50⟩ ⟨0, 0, -100⟩
      (Object.sphere ⟨⟨0x26, 0x60, 0x53⟩, 0.3, ⟨250, 250, 150⟩, 100⟩))
    center_pixel_hit
  exact ⟨hne, h1, h2, normalize_correct.2.2.1 0 0, hshadow, hview⟩

end Raytracer

end
